import Mathlib

/-! Floppy interface control, AT32F415 (`src/mcu/at32f415/floppy.c`).

A shallow embedding of the drive selection / motor state machine, the user
pin surface and the RDATA/WDATA DMA preparation of `floppy.c`, followed by
theorems about them.

Conventions of the embedding:

* the process-wide variables of the C file (`bus_type`, `unit_nr`,
  `unit[].motor`, `delay_params`) and the GPIO output levels are fields of
  `State`, passed explicitly;
* every HAL call that drives a pin or waits is also appended to `State.trace`,
  in program order, so that the number and the order of pin writes and delays
  can be stated;
* `ASSERT` failing halts the MCU: a function that contains an `ASSERT`
  returns `Option`, and `none` is the halt.
-/

namespace Floppy

/-! ## Constants and tables -/

/-- Line 12: `#define O_FALSE 1`. -/
def O_FALSE : Nat := 1

/-- Line 13: `#define O_TRUE 0` (the floppy bus is active-low). -/
def O_TRUE : Nat := 0

/-- Modelled from the spec: the HAL levels `HIGH` and `LOW` are not defined in
`floppy.c`; the high electrical level is 1 and the low one is 0. -/
def HIGH : Nat := 1

/-- Modelled from the spec: see `HIGH`. -/
def LOW : Nat := 0

/-- GPIO bank identifiers used by the pin tables (`_A`, `_B`). The table
sentinel `{0, 0, 0}` has bank value 0, which is read as `_A` here; a sentinel
entry is never dereferenced. -/
inductive Bank where
  | _A
  | _B
  deriving DecidableEq, Repr

open Bank

/-- One entry of a pin table: `struct pin_mapping { pin_id, gpio_bank, gpio_pin }`. -/
structure pin_mapping where
  pin_id : Nat
  gpio_bank : Bank
  gpio_pin : Nat
  deriving DecidableEq, Repr

/-- Lines 54-60: the SELECT/MOTOR table, sentinel included. -/
def msel_pins : List pin_mapping :=
  [ ⟨10, _A, 3⟩, ⟨12, _B, 9⟩, ⟨14, _A, 4⟩, ⟨16, _A, 1⟩, ⟨0, _A, 0⟩ ]

/-- Lines 62-67: the user pin table, sentinel included. -/
def user_pins : List pin_mapping :=
  [ ⟨2, _A, 6⟩, ⟨4, _A, 5⟩, ⟨6, _A, 7⟩, ⟨0, _A, 0⟩ ]

/-- Modelled from the spec: the bus type enumeration (`IBMPC`, `SHUGART`,
`UNSET`); `floppy.c` names `BUS_IBMPC` and `BUS_SHUGART` and treats every other
value in the `default:` arm of its switches. -/
inductive BusType where
  | BUS_IBMPC
  | BUS_SHUGART
  | BUS_UNSET
  deriving DecidableEq, Repr

open BusType

/-- Modelled from the spec: the acknowledgement codes used by `floppy.c`; their
numeric values are defined elsewhere, only their being distinct matters. -/
inductive Ack where
  | ACK_OKAY
  | ACK_BAD_UNIT
  | ACK_BAD_PIN
  | ACK_NO_BUS
  deriving DecidableEq, Repr

open Ack

/-- Modelled from the spec: `delay_params`, with the two delays `floppy.c` reads. -/
structure DelayParams where
  select_delay : Nat
  motor_delay : Nat
  deriving DecidableEq, Repr

/-- A HAL call with an effect outside the CPU, as recorded by a mock HAL. -/
inductive HalEvent where
  | write (bank : Bank) (pin : Nat) (level : Nat)
  | delay_us (n : Nat)
  | delay_ms (n : Nat)
  deriving DecidableEq, Repr

/-- Level of every GPIO pin, by bank and pin number: the level driven on an
output pin, the level sensed on an input pin. -/
abbrev Gpio := Bank → Nat → Nat

/-- The process-wide state read and written by `floppy.c`. `unit_nr` is the C
`int` with sentinel `-1`; `unit_motor i` is `unit[i].motor`. -/
structure State where
  bus_type : BusType
  unit_nr : Int
  unit_motor : Nat → Bool
  delay_params : DelayParams
  gpio : Gpio
  trace : List HalEvent

/-! ## HAL primitives -/

/-- The GPIO levels after one pin is driven to `level`. -/
def Gpio.set (g : Gpio) (bank : Bank) (pin : Nat) (level : Nat) : Gpio :=
  fun b p => if b = bank ∧ p = pin then level else g b p

/-- Modelled from the spec: the HAL primitive `gpio_write_pin` (not in
`floppy.c`) drives one pin to `level`; the call is recorded in the trace. -/
def gpio_write_pin (s : State) (bank : Bank) (pin : Nat) (level : Nat) : State :=
  { s with gpio := s.gpio.set bank pin level,
           trace := s.trace ++ [HalEvent.write bank pin level] }

/-- Modelled from the spec: the HAL primitive `delay_us` blocks for `n`
microseconds; the call is recorded in the trace. -/
def delay_us (s : State) (n : Nat) : State :=
  { s with trace := s.trace ++ [HalEvent.delay_us n] }

/-- Modelled from the spec: the HAL primitive `delay_ms` blocks for `n`
milliseconds; the call is recorded in the trace. -/
def delay_ms (s : State) (n : Nat) : State :=
  { s with trace := s.trace ++ [HalEvent.delay_ms n] }

/-- The table walk `for (p = map; p->pin_id != 0; p++) if (p->pin_id == pin) goto found;`
of lines 286-289: the first entry before the sentinel whose id is `pin`. -/
def find_pin : List pin_mapping → Int → Option pin_mapping
  | [], _ => none
  | m :: rest, pin =>
    if m.pin_id = 0 then none
    else if (m.pin_id : Int) = pin then some m
    else find_pin rest pin

/-- Modelled from the spec: `write_mapped_pin(table, pin_id, level)` (defined
outside `floppy.c`) linear-searches the table for `pin_id`; if found it drives
the resolved GPIO to `level` and returns OK, otherwise it returns `BAD_PIN`. -/
def write_mapped_pin (s : State) (map : List pin_mapping) (pin_id : Int) (level : Nat) :
    Ack × State :=
  match find_pin map pin_id with
  | some m => (ACK_OKAY, gpio_write_pin s m.gpio_bank m.gpio_pin level)
  | none => (ACK_BAD_PIN, s)

/-! ## Drive selection state machine (lines 162-271) -/

/-- Lines 170-184 of `drive_deselect`: the pin of the selected unit, `-1` when
no case of the switches applies. -/
def deselect_pin (bus : BusType) (unit_nr : Int) : Int :=
  match bus with
  | BUS_IBMPC =>
    if unit_nr = 0 then 14 else if unit_nr = 1 then 12 else -1
  | BUS_SHUGART =>
    if unit_nr = 0 then 10 else if unit_nr = 1 then 12 else if unit_nr = 2 then 14 else -1
  | BUS_UNSET => -1

/-- Lines 162-190: `drive_deselect`. `none` is the failed `ASSERT(rc == ACK_OKAY)`. -/
def drive_deselect (s : State) : Option State :=
  if s.unit_nr = -1 then some s
  else
    let r := write_mapped_pin s msel_pins (deselect_pin s.bus_type s.unit_nr) O_FALSE
    if r.1 = ACK_OKAY then some { r.2 with unit_nr := -1 } else none

/-- Lines 202-220 of `drive_select`: the pin to assert, or the error returned
from inside the switches. -/
def select_pin (bus : BusType) (nr : Nat) : Except Ack Int :=
  match bus with
  | BUS_IBMPC =>
    if nr = 0 then .ok 14 else if nr = 1 then .ok 12 else .error ACK_BAD_UNIT
  | BUS_SHUGART =>
    if nr = 0 then .ok 10 else if nr = 1 then .ok 12 else if nr = 2 then .ok 14
    else .error ACK_BAD_UNIT
  | BUS_UNSET => .error ACK_NO_BUS

/-- Lines 192-230: `drive_select`. `none` is the failed assertion inside the
call of `drive_deselect`. -/
def drive_select (s : State) (nr : Nat) : Option (Ack × State) :=
  if (nr : Int) = s.unit_nr then some (ACK_OKAY, s)
  else
    match drive_deselect s with
    | none => none
    | some s1 =>
      match select_pin s1.bus_type nr with
      | .error e => some (e, s1)
      | .ok pin =>
        let r := write_mapped_pin s1 msel_pins pin O_TRUE
        if r.1 ≠ ACK_OKAY then some (ACK_BAD_UNIT, r.2)
        else
          let s2 := { r.2 with unit_nr := (nr : Int) }
          some (ACK_OKAY, delay_us s2 s2.delay_params.select_delay)

/-- Lines 261-269 of `drive_motor`, shared by both bus arms: write the pin,
record the flag of unit `nr`, wait for spin-up when switching on. -/
def drive_motor_write (s : State) (nr : Nat) (pin : Int) (on_ : Bool) : Ack × State :=
  let r := write_mapped_pin s msel_pins pin (if on_ then O_TRUE else O_FALSE)
  if r.1 ≠ ACK_OKAY then (ACK_BAD_UNIT, r.2)
  else
    let s1 := { r.2 with unit_motor := fun i => if i = nr then on_ else r.2.unit_motor i }
    (ACK_OKAY, if on_ then delay_ms s1 s1.delay_params.motor_delay else s1)

/-- Lines 232-271: `drive_motor`. -/
def drive_motor (s : State) (nr : Nat) (on_ : Bool) : Ack × State :=
  match s.bus_type with
  | BUS_IBMPC =>
    if nr ≥ 2 then (ACK_BAD_UNIT, s)
    else if s.unit_motor nr = on_ then (ACK_OKAY, s)
    else drive_motor_write s nr (if nr = 0 then 10 else if nr = 1 then 16 else -1) on_
  | BUS_SHUGART =>
    if nr ≥ 3 then (ACK_BAD_UNIT, s)
    else if s.unit_motor 0 = on_ then (ACK_OKAY, s)
    else drive_motor_write s 0 16 on_
  | BUS_UNSET => (ACK_NO_BUS, s)

/-! ## Auxiliary pin surface (lines 282-321) -/

/-- Lines 282-295: `set_user_pin`. -/
def set_user_pin (s : State) (pin : Nat) (level : Nat) : Ack × State :=
  match find_pin user_pins (pin : Int) with
  | none => (ACK_BAD_PIN, s)
  | some upin => (ACK_OKAY, gpio_write_pin s upin.gpio_bank upin.gpio_pin level)

/-- The loop of lines 301-302 over the entries that precede the sentinel. -/
def reset_pins_loop : List pin_mapping → State → State
  | [], s => s
  | upin :: rest, s =>
    if upin.pin_id = 0 then s
    else reset_pins_loop rest (gpio_write_pin s upin.gpio_bank upin.gpio_pin O_FALSE)

/-- Lines 297-303: `reset_user_pins`. -/
def reset_user_pins (s : State) : State :=
  reset_pins_loop user_pins s

/-- Lines 305-309: `flippy_trk0_sensor`. -/
def flippy_trk0_sensor (s : State) (level : Nat) : State :=
  delay_us (gpio_write_pin s _B 14 level) 10

/-- Lines 314-321: `flippy_detect`. The track-0 input is outside the program:
`get_trk0 t` is the level `get_trk0()` reads when it is called in state `t`
(pin levels and HAL calls made so far), whatever the input does. -/
def flippy_detect (s : State) (get_trk0 : State → Nat) : Bool × State :=
  let s1 := flippy_trk0_sensor s HIGH
  let is_flippy := decide (get_trk0 s1 = HIGH)
  let s2 := flippy_trk0_sensor s1 LOW
  (is_flippy, s2)

/-- Modelled from the spec: the HAL primitive `gpio_read_pin` (not in
`floppy.c`) reads the level of one pin. -/
def gpio_read_pin (s : State) (bank : Bank) (pin : Nat) : Nat :=
  s.gpio bank pin

/-- Lines 273-280: `mcu_get_floppy_pin`. `p_level` is the content of `*p_level`
before the call; the result carries the return code, the content of `*p_level`
after the call, and the state, which the function does not write. -/
def mcu_get_floppy_pin (s : State) (pin : Nat) (p_level : Nat) : Ack × Nat × State :=
  if pin = 34 then (ACK_OKAY, gpio_read_pin s _B 15, s)
  else (ACK_BAD_PIN, p_level, s)

/-! ## Command sequences -/

/-- A call made by the host command layer. For `flippy_detect` the argument is
the track-0 level that the call samples. -/
inductive Cmd where
  | select (nr : Nat)
  | deselect
  | motor (nr : Nat) (on_ : Bool)
  | set_user_pin (pin : Nat) (level : Nat)
  | reset_user_pins
  | flippy_detect (trk0 : Nat)
  deriving DecidableEq, Repr

/-- The state after one call; `none` when the call halts in `ASSERT`. -/
def step (s : State) : Cmd → Option State
  | Cmd.select nr => (drive_select s nr).map Prod.snd
  | Cmd.deselect => drive_deselect s
  | Cmd.motor nr on_ => some (drive_motor s nr on_).2
  | Cmd.set_user_pin pin level => some (set_user_pin s pin level).2
  | Cmd.reset_user_pins => some (reset_user_pins s)
  | Cmd.flippy_detect trk0 => some (flippy_detect s (fun _ => trk0)).2

/-- The state after a sequence of calls, made in order. -/
def run : State → List Cmd → Option State
  | s, [] => some s
  | s, c :: cs => (step s c).bind (fun s1 => run s1 cs)

/-- The GPIO that an external pin of the SELECT/MOTOR group resolves to. -/
def msel_level (g : Gpio) (pin_id : Int) : Option Nat :=
  (find_pin msel_pins pin_id).map (fun m => g m.gpio_bank m.gpio_pin)

/-- The boot state under bus type `bus`: nothing selected, every motor flag
off, every SELECT/MOTOR pin at `O_FALSE` (as `floppy_mcu_init` configures them
with `GPO_bus`), and no HAL call recorded yet. -/
def Boot (bus : BusType) (s : State) : Prop :=
  s.bus_type = bus ∧ s.unit_nr = -1 ∧ (∀ i, s.unit_motor i = false) ∧
  (∀ pin_id ∈ [10, 12, 14, 16], msel_level s.gpio pin_id = some O_FALSE) ∧
  s.trace = []

/-- A concrete boot state: every pin at `O_FALSE`. -/
def bootState (bus : BusType) (d : DelayParams) : State :=
  { bus_type := bus, unit_nr := -1, unit_motor := fun _ => false,
    delay_params := d, gpio := fun _ _ => O_FALSE, trace := [] }

/-- States reachable from a boot state of bus type `bus` by host calls. -/
def Reachable (bus : BusType) (s : State) : Prop :=
  ∃ s0 cmds, Boot bus s0 ∧ run s0 cmds = some s

/-! ## Invariants of the selection state machine -/

/-- The level at which a line is driven for a flag: `on ? O_TRUE : O_FALSE`. -/
def lvl (b : Bool) : Nat := if b then O_TRUE else O_FALSE

/-- The invariant kept by every host call under a fixed bus type: `unit_nr`
is none or a unit of the bus, each SELECT line of the bus is asserted exactly
when its unit is the selected one, and each motor line of the bus is asserted
exactly when the flag that tracks it is set. -/
def Inv (bus : BusType) (s : State) : Prop :=
  s.bus_type = bus ∧
  match bus with
  | BUS_IBMPC =>
    (s.unit_nr = -1 ∨ s.unit_nr = 0 ∨ s.unit_nr = 1) ∧
    s.gpio _A 4 = lvl (decide (s.unit_nr = 0)) ∧
    s.gpio _B 9 = lvl (decide (s.unit_nr = 1)) ∧
    s.gpio _A 3 = lvl (s.unit_motor 0) ∧
    s.gpio _A 1 = lvl (s.unit_motor 1)
  | BUS_SHUGART =>
    (s.unit_nr = -1 ∨ s.unit_nr = 0 ∨ s.unit_nr = 1 ∨ s.unit_nr = 2) ∧
    s.gpio _A 3 = lvl (decide (s.unit_nr = 0)) ∧
    s.gpio _B 9 = lvl (decide (s.unit_nr = 1)) ∧
    s.gpio _A 4 = lvl (decide (s.unit_nr = 2)) ∧
    s.gpio _A 1 = lvl (s.unit_motor 0) ∧
    s.unit_motor 1 = false ∧ s.unit_motor 2 = false
  | BUS_UNSET =>
    s.unit_nr = -1 ∧
    s.gpio _A 3 = O_FALSE ∧ s.gpio _B 9 = O_FALSE ∧ s.gpio _A 4 = O_FALSE ∧
    s.gpio _A 1 = O_FALSE ∧ ∀ i, s.unit_motor i = false


/-! ## The recorded trace and the SELECT lines -/

/-- The effect of one recorded HAL call on the GPIO levels. -/
def HalEvent.apply (g : Gpio) : HalEvent → Gpio
  | HalEvent.write bank pin level => g.set bank pin level
  | HalEvent.delay_us _ => g
  | HalEvent.delay_ms _ => g

/-- The GPIO levels after the recorded calls `tr`, starting from levels `g`. -/
def replay (g : Gpio) (tr : List HalEvent) : Gpio :=
  tr.foldl HalEvent.apply g

/-- How many of the external pins 10, 12, 14 are at `O_TRUE`. -/
def select_count (g : Gpio) : Nat :=
  (([10, 12, 14] : List Int).filter (fun pin_id => msel_level g pin_id = some O_TRUE)).length

/-- At most one of the pins 10, 12, 14 is asserted before the trace and after
each of its calls. -/
def trace_ok (g : Gpio) : List HalEvent → Prop
  | [] => select_count g ≤ 1
  | e :: r => select_count g ≤ 1 ∧ trace_ok (e.apply g) r

/-- The calls of the selection state machine proper. -/
def Cmd.is_selection : Cmd → Bool
  | Cmd.select _ => true
  | Cmd.deselect => true
  | _ => false

/-- The invariant of sequences of `drive_select` and `drive_deselect` calls
started at GPIO levels `g0`: the state invariant, no motor flag set, the trace
accounts for the GPIO levels, and the trace never asserts two of 10, 12, 14. -/
def SelInv (bus : BusType) (g0 : Gpio) (s : State) : Prop :=
  Inv bus s ∧ (∀ i, s.unit_motor i = false) ∧ s.gpio = replay g0 s.trace ∧
  trace_ok g0 s.trace

/-- The state after boot (every pin at `O_FALSE`) and one `drive_select nr`. -/
def selectedState (bus : BusType) (d : DelayParams) (nr : Nat) : State :=
  match drive_select (bootState bus d) nr with
  | some r => r.2
  | none => bootState bus d

/-- The external pin of the motor line of unit `nr`, as `drive_motor` resolves
it (lines 243-246 and 255): IBMPC 0 -> 10, 1 -> 16; SHUGART 16 for every unit. -/
def motor_pin (bus : BusType) (nr : Nat) : Int :=
  match bus with
  | BUS_IBMPC => if nr = 0 then 10 else if nr = 1 then 16 else -1
  | BUS_SHUGART => 16
  | BUS_UNSET => -1

/-- The index of the `unit[]` entry whose `motor` flag `drive_motor` reads and
writes for unit `nr`: `nr` itself under IBMPC, 0 under SHUGART (line 252). -/
def motor_index (bus : BusType) (nr : Nat) : Nat :=
  match bus with
  | BUS_SHUGART => 0
  | _ => nr

/-! ## RDATA / WDATA timer and DMA registers (lines 103-160) -/

/-- The flags `floppy.c` ORs into a DMA channel control register; a register
value is the list of the flags set in it (`[]` is the reset value 0). The
numeric values of the `DMA_CR_*` macros are defined outside `floppy.c`. -/
inductive DmaCrFlag where
  | DMA_CR_PL_HIGH
  | DMA_CR_MSIZE_16BIT
  | DMA_CR_PSIZE_16BIT
  | DMA_CR_MINC
  | DMA_CR_CIRC
  | DMA_CR_DIR_P2M
  | DMA_CR_DIR_M2P
  | DMA_CR_EN
  deriving DecidableEq, Repr

open DmaCrFlag

/-- The flags `floppy.c` writes into the registers of timer 2. -/
inductive TimFlag where
  | TIM_CCMR1_CC1S_INPUT_TI1
  | TIM_CCMR2_CC3S_OUTPUT
  | TIM_CCMR2_OC3M_PWM1
  | TIM_DIER_CC1DE
  | TIM_DIER_UDE
  | TIM_EGR_UG
  | TIM_CCER_CC1E
  | TIM_CCER_CC1P
  | TIM_CCER_CC3E
  | TIM_CCER_CC3P
  deriving DecidableEq, Repr

open TimFlag

/-- The peripheral address programmed into a DMA channel. -/
inductive PeriphAddr where
  | unset
  | tim2_ccr1
  deriving DecidableEq, Repr

/-- The registers of one DMA channel that `floppy.c` writes. -/
structure DmaChannel where
  par : PeriphAddr
  cr : List DmaCrFlag
  deriving DecidableEq, Repr

/-- The registers of timer 2 that `floppy.c` writes (`tim_rdata` and
`tim_wdata` are both `tim2`). -/
structure Timer where
  psc : Nat
  arr : Nat
  ccr3 : Nat
  ccmr1 : List TimFlag
  ccmr2 : List TimFlag
  dier : List TimFlag
  cr2 : List TimFlag
  egr : List TimFlag
  sr : List TimFlag
  ccer : List TimFlag
  deriving DecidableEq, Repr

/-- Timer 2 and the two DMA channels: `dma_rdata` is `dma1->ch5`, `dma_wdata`
is `dma1->ch2`. -/
structure Regs where
  tim2 : Timer
  dma_rdata : DmaChannel
  dma_wdata : DmaChannel
  deriving DecidableEq, Repr

/-- Lines 103-131: `rdata_prep`. `TIM_PSC` is the prescaler macro, defined
outside `floppy.c`. -/
def rdata_prep (TIM_PSC : Nat) (r : Regs) : Regs :=
  let t := r.tim2
  let t := { t with psc := TIM_PSC - 1 }
  let t := { t with arr := 0xffff }
  let t := { t with ccmr1 := [TIM_CCMR1_CC1S_INPUT_TI1] }
  let t := { t with dier := [TIM_DIER_CC1DE] }
  let t := { t with cr2 := [] }
  let t := { t with egr := [TIM_EGR_UG] }
  let t := { t with sr := [] }
  let d := { r.dma_rdata with par := PeriphAddr.tim2_ccr1 }
  let d := { d with cr := [DMA_CR_PL_HIGH, DMA_CR_MSIZE_16BIT, DMA_CR_PSIZE_16BIT,
                            DMA_CR_MINC, DMA_CR_CIRC, DMA_CR_DIR_P2M, DMA_CR_EN] }
  let t := { t with ccer := [TIM_CCER_CC1E, TIM_CCER_CC1P] }
  { r with tim2 := t, dma_rdata := d }

/-- Lines 133-149: `wdata_prep`. `sample_ns_400` is the value of the macro
call `sample_ns(400)`; `O_TRUE == 0` selects the inverted polarity. -/
def wdata_prep (TIM_PSC : Nat) (sample_ns_400 : Nat) (r : Regs) : Regs :=
  let t := r.tim2
  let t := { t with psc := TIM_PSC - 1 }
  let t := { t with ccmr2 := [TIM_CCMR2_CC3S_OUTPUT, TIM_CCMR2_OC3M_PWM1] }
  let t := { t with ccer := TIM_CCER_CC3E :: (if O_TRUE = 0 then [TIM_CCER_CC3P] else []) }
  let t := { t with ccr3 := sample_ns_400 }
  let t := { t with dier := [TIM_DIER_UDE] }
  let t := { t with cr2 := [] }
  { r with tim2 := t }

/-- Lines 151-160: `dma_wdata_start`. -/
def dma_wdata_start (r : Regs) : Regs :=
  { r with dma_wdata :=
      { r.dma_wdata with cr := [DMA_CR_PL_HIGH, DMA_CR_MSIZE_16BIT, DMA_CR_PSIZE_16BIT,
                                 DMA_CR_MINC, DMA_CR_CIRC, DMA_CR_DIR_M2P, DMA_CR_EN] } }

/-- A call that prepares or starts a flux transfer. -/
inductive FluxCmd where
  | rdata_prep
  | wdata_prep
  | dma_wdata_start
  deriving DecidableEq, Repr

/-- The registers after one flux call. -/
def flux_step (TIM_PSC sample_ns_400 : Nat) (r : Regs) : FluxCmd → Regs
  | FluxCmd.rdata_prep => rdata_prep TIM_PSC r
  | FluxCmd.wdata_prep => wdata_prep TIM_PSC sample_ns_400 r
  | FluxCmd.dma_wdata_start => dma_wdata_start r

/-- The registers after a sequence of flux calls, made in order. -/
def flux_run (TIM_PSC sample_ns_400 : Nat) (r : Regs) (cmds : List FluxCmd) : Regs :=
  cmds.foldl (flux_step TIM_PSC sample_ns_400) r

/-- Capture is active: the enable bit of `dma_rdata.cr` is set. -/
def capture_active (r : Regs) : Bool := decide (DMA_CR_EN ∈ r.dma_rdata.cr)

/-- Emit is active: the enable bit of `dma_wdata.cr` is set. -/
def emit_active (r : Regs) : Bool := decide (DMA_CR_EN ∈ r.dma_wdata.cr)

/-- The registers at boot: everything at its reset value, both DMA channels
disabled (`floppy_mcu_init` writes none of these registers). -/
def bootRegs : Regs :=
  { tim2 := { psc := 0, arr := 0, ccr3 := 0, ccmr1 := [], ccmr2 := [], dier := [], cr2 := [],
              egr := [], sr := [], ccer := [] },
    dma_rdata := { par := PeriphAddr.unset, cr := [] },
    dma_wdata := { par := PeriphAddr.unset, cr := [] } }

/-- The microseconds waited by the `delay_us` calls of a trace. -/
def delay_total_us : List HalEvent → Nat
  | [] => 0
  | HalEvent.delay_us n :: r => n + delay_total_us r
  | _ :: r => delay_total_us r

/-! ## Lemmas -/

theorem boot_inv {bus : BusType} {s : State} (h : Boot bus s) : Inv bus s := by
  obtain ⟨hb, hu, hm, hp, -⟩ := h
  simp [msel_level, find_pin, msel_pins] at hp
  obtain ⟨h3, h9, h4, h1⟩ := hp
  cases bus <;> simp [Inv, hb, hu, hm, h3, h9, h4, h1, lvl]

theorem bootState_boot (bus : BusType) (d : DelayParams) : Boot bus (bootState bus d) := by
  simp [Boot, bootState, msel_level, find_pin, msel_pins]

theorem drive_deselect_inv {bus : BusType} {s : State} (h : Inv bus s) :
    ∃ s1, drive_deselect s = some s1 ∧ Inv bus s1 := by
  obtain ⟨hb, h⟩ := h
  cases bus
  · obtain ⟨hu, h4, h9, h3, h1⟩ := h
    rcases hu with hu | hu | hu <;>
      simp [drive_deselect, hu, hb, deselect_pin, write_mapped_pin, find_pin, msel_pins,
        gpio_write_pin, Gpio.set, Inv, lvl, O_FALSE, O_TRUE] at * <;> simp [*]
  · obtain ⟨hu, h3, h9, h4, h1, hm⟩ := h
    rcases hu with hu | hu | hu | hu <;>
      simp [drive_deselect, hu, hb, deselect_pin, write_mapped_pin, find_pin, msel_pins,
        gpio_write_pin, Gpio.set, Inv, lvl, O_FALSE, O_TRUE] at * <;> simp [*]
  · obtain ⟨hu, h⟩ := h
    simp [drive_deselect, hu, hb, Inv, h]

theorem drive_select_inv {bus : BusType} {s : State} (nr : Nat) (h : Inv bus s) :
    ∃ r, drive_select s nr = some r ∧ Inv bus r.2 := by
  obtain ⟨hb, h⟩ := h
  cases bus
  · obtain ⟨hu, h4, h9, h3, h1⟩ := h
    rcases Nat.lt_or_ge nr 2 with hn | hn
    · interval_cases nr <;> rcases hu with hu | hu | hu <;>
        simp [drive_select, drive_deselect, select_pin, hu, hb, deselect_pin, write_mapped_pin,
          find_pin, msel_pins, gpio_write_pin, delay_us, Gpio.set, Inv, lvl, O_FALSE,
          O_TRUE] at * <;> simp [*]
    · have h0 : nr ≠ 0 := by omega
      have h1 : nr ≠ 1 := by omega
      have hi0 : ¬ ((nr : Int) = 0) := by omega
      have hi1 : ¬ ((nr : Int) = 1) := by omega
      have hi2 : ¬ ((nr : Int) = -1) := by omega
      rcases hu with hu | hu | hu <;>
        simp [drive_select, drive_deselect, select_pin, hu, hb, deselect_pin, write_mapped_pin,
          find_pin, msel_pins, gpio_write_pin, delay_us, Gpio.set, Inv, lvl, O_FALSE,
          O_TRUE, h0, h1, hi0, hi1, hi2] at * <;> simp [*]
  · obtain ⟨hu, h3, h9, h4, h1, hm⟩ := h
    rcases Nat.lt_or_ge nr 3 with hn | hn
    · interval_cases nr <;> rcases hu with hu | hu | hu | hu <;>
        simp [drive_select, drive_deselect, select_pin, hu, hb, deselect_pin, write_mapped_pin,
          find_pin, msel_pins, gpio_write_pin, delay_us, Gpio.set, Inv, lvl, O_FALSE,
          O_TRUE] at * <;> simp [*]
    · have h0 : nr ≠ 0 := by omega
      have h1 : nr ≠ 1 := by omega
      have h2 : nr ≠ 2 := by omega
      have hi0 : ¬ ((nr : Int) = 0) := by omega
      have hi1 : ¬ ((nr : Int) = 1) := by omega
      have hi2 : ¬ ((nr : Int) = 2) := by omega
      have hi3 : ¬ ((nr : Int) = -1) := by omega
      rcases hu with hu | hu | hu | hu <;>
        simp [drive_select, drive_deselect, select_pin, hu, hb, deselect_pin, write_mapped_pin,
          find_pin, msel_pins, gpio_write_pin, delay_us, Gpio.set, Inv, lvl, O_FALSE,
          O_TRUE, h0, h1, h2, hi0, hi1, hi2, hi3] at * <;> simp [*]
  · obtain ⟨hu, h⟩ := h
    have hi : ¬ ((nr : Int) = -1) := by omega
    simp [drive_select, drive_deselect, select_pin, hu, hb, hi, Inv, h]

theorem drive_motor_inv {bus : BusType} {s : State} (nr : Nat) (on_ : Bool) (h : Inv bus s) :
    Inv bus (drive_motor s nr on_).2 := by
  obtain ⟨hb, h⟩ := h
  cases bus
  · obtain ⟨hu, h4, h9, h3, h1⟩ := h
    rcases Nat.lt_or_ge nr 2 with hn | hn
    · interval_cases nr <;> cases on_ <;>
        cases hm0 : s.unit_motor 0 <;> cases hm1 : s.unit_motor 1 <;>
        simp [drive_motor, drive_motor_write, hb, write_mapped_pin, find_pin, msel_pins,
          gpio_write_pin, delay_ms, Gpio.set, Inv, lvl, O_FALSE, O_TRUE, hm0, hm1] at * <;>
        simp [*]
    · have hn2 : ¬ nr < 2 := by omega
      simp [drive_motor, hb, hn, Inv, hu, h4, h9, h3, h1]
  · obtain ⟨hu, h3, h9, h4, h1, hm1, hm2⟩ := h
    rcases Nat.lt_or_ge nr 3 with hn | hn
    · interval_cases nr <;> cases on_ <;> cases hm0 : s.unit_motor 0 <;>
        simp [drive_motor, drive_motor_write, hb, write_mapped_pin, find_pin, msel_pins,
          gpio_write_pin, delay_ms, Gpio.set, Inv, lvl, O_FALSE, O_TRUE, hm0, hm1, hm2] at * <;>
        simp [*]
    · simp [drive_motor, hb, hn, Inv, hu, h4, h9, h3, h1, hm1, hm2]
  · simpa [drive_motor, hb, Inv] using h

/-- The invariant only reads the selection variables and the four SELECT/MOTOR
GPIOs. -/
theorem inv_of_frame {bus : BusType} {s t : State} (h : Inv bus s)
    (hb : t.bus_type = s.bus_type) (hu : t.unit_nr = s.unit_nr)
    (hm : t.unit_motor = s.unit_motor)
    (h3 : t.gpio _A 3 = s.gpio _A 3) (h9 : t.gpio _B 9 = s.gpio _B 9)
    (h4 : t.gpio _A 4 = s.gpio _A 4) (h1 : t.gpio _A 1 = s.gpio _A 1) : Inv bus t := by
  cases bus <;> simpa [Inv, hb, hu, hm, h3, h9, h4, h1] using h

theorem find_user_pin {pin : Int} {m : pin_mapping} (h : find_pin user_pins pin = some m) :
    m = ⟨2, _A, 6⟩ ∨ m = ⟨4, _A, 5⟩ ∨ m = ⟨6, _A, 7⟩ := by
  simp only [find_pin, user_pins] at h
  split_ifs at h <;> simp_all

theorem set_user_pin_inv {bus : BusType} {s : State} (pin level : Nat) (h : Inv bus s) :
    Inv bus (set_user_pin s pin level).2 := by
  unfold set_user_pin
  cases hf : find_pin user_pins (pin : Int) with
  | none => exact h
  | some m =>
    rcases find_user_pin hf with rfl | rfl | rfl <;>
      exact inv_of_frame h rfl rfl rfl (by simp [gpio_write_pin, Gpio.set])
        (by simp [gpio_write_pin, Gpio.set]) (by simp [gpio_write_pin, Gpio.set])
        (by simp [gpio_write_pin, Gpio.set])

theorem reset_user_pins_inv {bus : BusType} {s : State} (h : Inv bus s) :
    Inv bus (reset_user_pins s) := by
  refine inv_of_frame h ?_ ?_ ?_ ?_ ?_ ?_ ?_ <;>
    simp [reset_user_pins, reset_pins_loop, user_pins, gpio_write_pin, Gpio.set]

theorem flippy_detect_inv {bus : BusType} {s : State} (get_trk0 : State → Nat)
    (h : Inv bus s) : Inv bus (flippy_detect s get_trk0).2 := by
  refine inv_of_frame h ?_ ?_ ?_ ?_ ?_ ?_ ?_ <;>
    simp [flippy_detect, flippy_trk0_sensor, delay_us, gpio_write_pin, Gpio.set]

theorem step_inv {bus : BusType} {s : State} (c : Cmd) (h : Inv bus s) :
    ∃ s1, step s c = some s1 ∧ Inv bus s1 := by
  cases c with
  | select nr =>
    obtain ⟨r, hr, hi⟩ := drive_select_inv nr h
    exact ⟨r.2, by simp [step, hr], hi⟩
  | deselect => exact drive_deselect_inv h
  | motor nr on_ => exact ⟨_, rfl, drive_motor_inv nr on_ h⟩
  | set_user_pin pin level => exact ⟨_, rfl, set_user_pin_inv pin level h⟩
  | reset_user_pins => exact ⟨_, rfl, reset_user_pins_inv h⟩
  | flippy_detect trk0 => exact ⟨_, rfl, flippy_detect_inv (fun _ => trk0) h⟩

/-- No sequence of host calls halts when started in a state that satisfies
the invariant, and the invariant holds at its end. -/
theorem run_inv {bus : BusType} (cmds : List Cmd) {s : State} (h : Inv bus s) :
    ∃ s1, run s cmds = some s1 ∧ Inv bus s1 := by
  induction cmds generalizing s with
  | nil => exact ⟨s, rfl, h⟩
  | cons c cs ih =>
    obtain ⟨s1, h1, hi1⟩ := step_inv c h
    obtain ⟨s2, h2, hi2⟩ := ih hi1
    exact ⟨s2, by simp [run, h1, h2], hi2⟩

theorem reachable_inv {bus : BusType} {s : State} (h : Reachable bus s) : Inv bus s := by
  obtain ⟨s0, cmds, hboot, hrun⟩ := h
  obtain ⟨s1, h1, hi⟩ := run_inv cmds (boot_inv hboot)
  rw [h1] at hrun
  cases hrun
  exact hi

/-! ## Mutual exclusion of SELECT -/

theorem select_count_le_one_iff (g : Gpio) :
    select_count g ≤ 1 ↔
      ¬ (g _A 3 = 0 ∧ g _B 9 = 0) ∧ ¬ (g _A 3 = 0 ∧ g _A 4 = 0) ∧
      ¬ (g _B 9 = 0 ∧ g _A 4 = 0) := by
  by_cases h3 : g _A 3 = 0 <;> by_cases h9 : g _B 9 = 0 <;> by_cases h4 : g _A 4 = 0 <;>
    simp [select_count, msel_level, find_pin, msel_pins, O_TRUE, List.filter, h3, h9, h4]

theorem replay_append (g : Gpio) (tr tr2 : List HalEvent) :
    replay g (tr ++ tr2) = replay (replay g tr) tr2 := by
  simp [replay, List.foldl_append]

theorem trace_ok_head {g : Gpio} {tr : List HalEvent} (h : trace_ok g tr) :
    select_count g ≤ 1 := by
  cases tr with
  | nil => exact h
  | cons e r => exact h.1

theorem trace_ok_iff_prefixes (g : Gpio) (tr : List HalEvent) :
    trace_ok g tr ↔ ∀ pre, pre <+: tr → select_count (replay g pre) ≤ 1 := by
  induction tr generalizing g with
  | nil => simp [trace_ok, replay]
  | cons e r ih =>
    simp only [trace_ok, ih, List.prefix_cons_iff]
    constructor
    · rintro ⟨h0, hr⟩ pre (rfl | ⟨t, rfl, ht⟩)
      · simpa [replay] using h0
      · simpa [replay] using hr t ht
    · intro h
      refine ⟨by simpa [replay] using h [] (Or.inl rfl), fun t ht => ?_⟩
      simpa [replay] using h (e :: t) (Or.inr ⟨t, rfl, ht⟩)

theorem trace_ok_append (g : Gpio) (tr tr2 : List HalEvent) :
    trace_ok g (tr ++ tr2) ↔ trace_ok g tr ∧ trace_ok (replay g tr) tr2 := by
  induction tr generalizing g with
  | nil => simpa [trace_ok, replay] using fun h => trace_ok_head h
  | cons e r ih =>
    show (select_count g ≤ 1 ∧ trace_ok (e.apply g) (r ++ tr2)) ↔
      (select_count g ≤ 1 ∧ trace_ok (e.apply g) r) ∧ trace_ok (replay (e.apply g) r) tr2
    rw [ih, and_assoc]

theorem replay_nil (g : Gpio) : replay g [] = g := rfl

theorem replay_cons (g : Gpio) (e : HalEvent) (r : List HalEvent) :
    replay g (e :: r) = replay (e.apply g) r := rfl

theorem drive_deselect_selinv {bus : BusType} {g0 : Gpio} {s : State} (h : SelInv bus g0 s) :
    ∃ s1, drive_deselect s = some s1 ∧ SelInv bus g0 s1 := by
  obtain ⟨⟨hb, h⟩, hm, hg, hok⟩ := h
  have hg2 : replay g0 s.trace = s.gpio := hg.symm
  cases bus
  · obtain ⟨hu, h4, h9, h3, h1⟩ := h
    rcases hu with hu | hu | hu <;>
      simp [hu, hm, lvl, O_FALSE, O_TRUE] at h4 h9 h3 h1 <;>
      simp [SelInv, drive_deselect, hu, hb, deselect_pin, write_mapped_pin, find_pin, msel_pins,
        gpio_write_pin, Gpio.set, Inv, lvl, O_FALSE, O_TRUE, hm, h4, h9, h3, h1, hok, hg2,
        trace_ok_append, replay_append, trace_ok, HalEvent.apply, select_count_le_one_iff,
        replay_nil, replay_cons]
  · obtain ⟨hu, h3, h9, h4, h1, hm1, hm2⟩ := h
    rcases hu with hu | hu | hu | hu <;>
      simp [hu, hm, lvl, O_FALSE, O_TRUE] at h4 h9 h3 h1 <;>
      simp [SelInv, drive_deselect, hu, hb, deselect_pin, write_mapped_pin, find_pin, msel_pins,
        gpio_write_pin, Gpio.set, Inv, lvl, O_FALSE, O_TRUE, hm, h4, h9, h3, h1, hok, hg2,
        trace_ok_append, replay_append, trace_ok, HalEvent.apply, select_count_le_one_iff,
        replay_nil, replay_cons]
  · obtain ⟨hu, h3, h9, h4, h1, -⟩ := h
    simp [SelInv, drive_deselect, hu, hb, Inv, hm, h4, h9, h3, h1, hok, hg2]

theorem drive_select_selinv {bus : BusType} {g0 : Gpio} {s : State} (nr : Nat)
    (h : SelInv bus g0 s) : ∃ r, drive_select s nr = some r ∧ SelInv bus g0 r.2 := by
  obtain ⟨⟨hb, h⟩, hm, hg, hok⟩ := h
  have hg2 : replay g0 s.trace = s.gpio := hg.symm
  cases bus
  · obtain ⟨hu, h4, h9, h3, h1⟩ := h
    rcases Nat.lt_or_ge nr 2 with hn | hn
    · interval_cases nr <;> rcases hu with hu | hu | hu <;>
        simp [hu, hm, lvl, O_FALSE, O_TRUE] at h4 h9 h3 h1 <;>
        simp [SelInv, drive_select, drive_deselect, select_pin, hu, hb, deselect_pin,
          write_mapped_pin, find_pin, msel_pins, gpio_write_pin, delay_us, Gpio.set, Inv, lvl,
          O_FALSE, O_TRUE, hm, h4, h9, h3, h1, hok, hg2, trace_ok_append, replay_append,
          trace_ok, HalEvent.apply, select_count_le_one_iff, replay_nil, replay_cons]
    · have hn0 : nr ≠ 0 := by omega
      have hn1 : nr ≠ 1 := by omega
      have hi0 : ¬ ((nr : Int) = 0) := by omega
      have hi1 : ¬ ((nr : Int) = 1) := by omega
      have hi2 : ¬ ((nr : Int) = -1) := by omega
      rcases hu with hu | hu | hu <;>
        simp [hu, hm, lvl, O_FALSE, O_TRUE] at h4 h9 h3 h1 <;>
        simp [SelInv, drive_select, drive_deselect, select_pin, hu, hb, deselect_pin,
          write_mapped_pin, find_pin, msel_pins, gpio_write_pin, delay_us, Gpio.set, Inv, lvl,
          O_FALSE, O_TRUE, hm, h4, h9, h3, h1, hok, hg2, trace_ok_append, replay_append,
          trace_ok, HalEvent.apply, select_count_le_one_iff, replay_nil, replay_cons,
          hn0, hn1, hi0, hi1, hi2]
  · obtain ⟨hu, h3, h9, h4, h1, hm1, hm2⟩ := h
    rcases Nat.lt_or_ge nr 3 with hn | hn
    · interval_cases nr <;> rcases hu with hu | hu | hu | hu <;>
        simp [hu, hm, lvl, O_FALSE, O_TRUE] at h4 h9 h3 h1 <;>
        simp [SelInv, drive_select, drive_deselect, select_pin, hu, hb, deselect_pin,
          write_mapped_pin, find_pin, msel_pins, gpio_write_pin, delay_us, Gpio.set, Inv, lvl,
          O_FALSE, O_TRUE, hm, h4, h9, h3, h1, hok, hg2, trace_ok_append, replay_append,
          trace_ok, HalEvent.apply, select_count_le_one_iff, replay_nil, replay_cons]
    · have hn0 : nr ≠ 0 := by omega
      have hn1 : nr ≠ 1 := by omega
      have hn2 : nr ≠ 2 := by omega
      have hi0 : ¬ ((nr : Int) = 0) := by omega
      have hi1 : ¬ ((nr : Int) = 1) := by omega
      have hi2 : ¬ ((nr : Int) = 2) := by omega
      have hi3 : ¬ ((nr : Int) = -1) := by omega
      rcases hu with hu | hu | hu | hu <;>
        simp [hu, hm, lvl, O_FALSE, O_TRUE] at h4 h9 h3 h1 <;>
        simp [SelInv, drive_select, drive_deselect, select_pin, hu, hb, deselect_pin,
          write_mapped_pin, find_pin, msel_pins, gpio_write_pin, delay_us, Gpio.set, Inv, lvl,
          O_FALSE, O_TRUE, hm, h4, h9, h3, h1, hok, hg2, trace_ok_append, replay_append,
          trace_ok, HalEvent.apply, select_count_le_one_iff, replay_nil, replay_cons,
          hn0, hn1, hn2, hi0, hi1, hi2, hi3]
  · obtain ⟨hu, h3, h9, h4, h1, -⟩ := h
    have hi : ¬ ((nr : Int) = -1) := by omega
    simp [SelInv, drive_select, drive_deselect, select_pin, hu, hb, hi, Inv, hm, h4, h9, h3, h1,
      hok, hg2]

/-! ## Exact effect of the selection calls -/

/-- With nothing selected `drive_deselect` returns at line 168. -/
theorem drive_deselect_idle {s : State} (h : s.unit_nr = -1) : drive_deselect s = some s := by
  simp [drive_deselect, h]

/-- With a unit of the bus selected, `drive_deselect` finds the unit's SELECT
pin in `msel_pins`, drives it to `O_FALSE` and clears `unit_nr`. -/
theorem drive_deselect_selected {bus : BusType} {s : State} (h : Inv bus s)
    (hsel : s.unit_nr ≠ -1) :
    ∃ old, find_pin msel_pins (deselect_pin bus s.unit_nr) = some old ∧
      drive_deselect s =
        some { gpio_write_pin s old.gpio_bank old.gpio_pin O_FALSE with unit_nr := -1 } := by
  obtain ⟨hb, h⟩ := h
  cases bus
  · obtain ⟨hu, -⟩ := h
    rcases hu with hu | hu | hu
    · exact absurd hu hsel
    all_goals
      rw [hu]
      refine ⟨_, rfl, ?_⟩
      simp [drive_deselect, hu, hb, deselect_pin, write_mapped_pin, find_pin, msel_pins]
  · obtain ⟨hu, -⟩ := h
    rcases hu with hu | hu | hu | hu
    · exact absurd hu hsel
    all_goals
      rw [hu]
      refine ⟨_, rfl, ?_⟩
      simp [drive_deselect, hu, hb, deselect_pin, write_mapped_pin, find_pin, msel_pins]
  · exact absurd h.1 hsel

/-- The pins `select_pin` resolves are entries of `msel_pins`. -/
theorem select_pin_mapped {bus : BusType} {nr : Nat} {p : Int}
    (hp : select_pin bus nr = .ok p) : ∃ new, find_pin msel_pins p = some new := by
  cases bus <;> simp only [select_pin] at hp
  · split_ifs at hp <;> cases hp <;> exact ⟨_, rfl⟩
  · split_ifs at hp <;> cases hp <;> exact ⟨_, rfl⟩
  · cases hp

/-- After a deselect that returned, `drive_select` of a unit the bus supports
asserts the unit's pin, records the unit and waits `select_delay`. -/
theorem drive_select_after_deselect {s s1 : State} {nr : Nat} {p : Int} {new : pin_mapping}
    (hne : (nr : Int) ≠ s.unit_nr) (hd : drive_deselect s = some s1)
    (hp : select_pin s1.bus_type nr = .ok p) (hf : find_pin msel_pins p = some new) :
    drive_select s nr = some (ACK_OKAY,
      delay_us { gpio_write_pin s1 new.gpio_bank new.gpio_pin O_TRUE with unit_nr := (nr : Int) }
        s1.delay_params.select_delay) := by
  simp [drive_select, hne, hd, hp, write_mapped_pin, hf, gpio_write_pin, delay_us]

/-- After a deselect that returned, `drive_select` of a unit the bus does not
support returns the error of the switch and does nothing more. -/
theorem drive_select_error_after_deselect {s s1 : State} {nr : Nat} {e : Ack}
    (hne : (nr : Int) ≠ s.unit_nr) (hd : drive_deselect s = some s1)
    (hp : select_pin s1.bus_type nr = .error e) :
    drive_select s nr = some (e, s1) := by
  simp [drive_select, hne, hd, hp]

theorem boot_selinv {bus : BusType} {s : State} (h : Boot bus s) : SelInv bus s.gpio s := by
  refine ⟨boot_inv h, h.2.2.1, ?_, ?_⟩
  · rw [h.2.2.2.2]; rfl
  · obtain ⟨-, -, -, hp, ht⟩ := h
    simp [msel_level, find_pin, msel_pins, O_FALSE] at hp
    simp [ht, trace_ok, select_count_le_one_iff, hp]

theorem run_selinv {bus : BusType} {g0 : Gpio} (cmds : List Cmd) {s : State}
    (h : SelInv bus g0 s) (hcmds : ∀ c ∈ cmds, Cmd.is_selection c = true) :
    ∃ s1, run s cmds = some s1 ∧ SelInv bus g0 s1 := by
  induction cmds generalizing s with
  | nil => exact ⟨s, rfl, h⟩
  | cons c cs ih =>
    have hc := hcmds c (List.mem_cons_self c cs)
    have hstep : ∃ s1, step s c = some s1 ∧ SelInv bus g0 s1 := by
      cases c with
      | select nr =>
        obtain ⟨r, hr, hi⟩ := drive_select_selinv nr h
        exact ⟨r.2, by simp [step, hr], hi⟩
      | deselect => exact drive_deselect_selinv h
      | motor nr on_ => simp [Cmd.is_selection] at hc
      | set_user_pin pin level => simp [Cmd.is_selection] at hc
      | reset_user_pins => simp [Cmd.is_selection] at hc
      | flippy_detect trk0 => simp [Cmd.is_selection] at hc
    obtain ⟨s1, h1, hi1⟩ := hstep
    obtain ⟨s2, h2, hi2⟩ := ih hi1 (fun c hc => hcmds c (List.mem_cons_of_mem _ hc))
    exact ⟨s2, by simp [run, h1, h2], hi2⟩

/-- When a unit of the bus is selected and another unit the bus supports is
requested, `drive_select` records exactly three HAL calls, in this order: the
old SELECT pin to `O_FALSE`, the new SELECT pin to `O_TRUE`, the settle delay. -/
theorem drive_select_switch {bus : BusType} {s : State} (h : Inv bus s) (nr : Nat) (p : Int)
    (hsel : s.unit_nr ≠ -1) (hne : (nr : Int) ≠ s.unit_nr) (hp : select_pin bus nr = .ok p) :
    ∃ old new s1, find_pin msel_pins (deselect_pin bus s.unit_nr) = some old ∧
      find_pin msel_pins p = some new ∧
      drive_select s nr = some (ACK_OKAY, s1) ∧
      s1.trace = s.trace ++ [HalEvent.write old.gpio_bank old.gpio_pin O_FALSE,
        HalEvent.write new.gpio_bank new.gpio_pin O_TRUE,
        HalEvent.delay_us s.delay_params.select_delay] := by
  obtain ⟨old, hold, hd⟩ := drive_deselect_selected h hsel
  obtain ⟨new, hnew⟩ := select_pin_mapped hp
  have hb : s.bus_type = bus := h.1
  refine ⟨old, new, _, hold, hnew,
    drive_select_after_deselect hne hd (by simpa [gpio_write_pin, hb] using hp) hnew, ?_⟩
  simp [delay_us, gpio_write_pin]

/-- C1. Mutual exclusion of SELECT: from a boot state under any fixed bus type,
every sequence of `drive_select` / `drive_deselect` calls runs to the end; the
final GPIO levels are those produced by the recorded pin writes; after every
prefix of the recorded HAL calls (so after every individual pin write) at most
one of the external pins 10, 12, 14 is at `O_TRUE`; and a `drive_select` that
switches from the selected unit to another unit of the bus writes the old
SELECT pin to `O_FALSE` before it writes the new one to `O_TRUE`. -/
theorem select_mutual_exclusion (bus : BusType) (s0 : State) (cmds : List Cmd)
    (hboot : Boot bus s0) (hcmds : ∀ c ∈ cmds, Cmd.is_selection c = true) :
    ∃ s, run s0 cmds = some s ∧ s.gpio = replay s0.gpio s.trace ∧
      (∀ pre, pre <+: s.trace → select_count (replay s0.gpio pre) ≤ 1) ∧
      ∀ (nr : Nat) (p : Int), s.unit_nr ≠ -1 → (nr : Int) ≠ s.unit_nr →
        select_pin bus nr = .ok p →
        ∃ old new s1, find_pin msel_pins (deselect_pin bus s.unit_nr) = some old ∧
          find_pin msel_pins p = some new ∧
          drive_select s nr = some (ACK_OKAY, s1) ∧
          s1.trace = s.trace ++ [HalEvent.write old.gpio_bank old.gpio_pin O_FALSE,
            HalEvent.write new.gpio_bank new.gpio_pin O_TRUE,
            HalEvent.delay_us s.delay_params.select_delay] := by
  obtain ⟨s, hrun, hinv, -, hg, hok⟩ := run_selinv cmds (boot_selinv hboot) hcmds
  exact ⟨s, hrun, hg, (trace_ok_iff_prefixes _ _).1 hok,
    fun nr p hsel hne hp => drive_select_switch hinv nr p hsel hne hp⟩

theorem select_mutual_exclusion_witness :
    Boot BUS_IBMPC (bootState BUS_IBMPC ⟨10, 750⟩) ∧
    (∀ c ∈ [Cmd.select 0, Cmd.deselect, Cmd.select 5, Cmd.select 1],
      Cmd.is_selection c = true) ∧
    ∃ s, run (bootState BUS_IBMPC ⟨10, 750⟩)
        [Cmd.select 0, Cmd.deselect, Cmd.select 5, Cmd.select 1] = some s ∧
      s.gpio = replay (bootState BUS_IBMPC ⟨10, 750⟩).gpio s.trace ∧
      (∀ pre, pre <+: s.trace →
        select_count (replay (bootState BUS_IBMPC ⟨10, 750⟩).gpio pre) ≤ 1) ∧
      ∀ (nr : Nat) (p : Int), s.unit_nr ≠ -1 → (nr : Int) ≠ s.unit_nr →
        select_pin BUS_IBMPC nr = .ok p →
        ∃ old new s1, find_pin msel_pins (deselect_pin BUS_IBMPC s.unit_nr) = some old ∧
          find_pin msel_pins p = some new ∧
          drive_select s nr = some (ACK_OKAY, s1) ∧
          s1.trace = s.trace ++ [HalEvent.write old.gpio_bank old.gpio_pin O_FALSE,
            HalEvent.write new.gpio_bank new.gpio_pin O_TRUE,
            HalEvent.delay_us s.delay_params.select_delay] :=
  ⟨bootState_boot _ _, by decide,
    select_mutual_exclusion _ _ _ (bootState_boot _ _) (by decide)⟩

/-! ## Caller errors of `drive_select` -/

/-- Every pin that `select_pin` resolves can be written through `msel_pins`. -/
theorem select_pin_write_ok {bus : BusType} {nr : Nat} {p : Int} (s : State) (level : Nat)
    (hp : select_pin bus nr = .ok p) : (write_mapped_pin s msel_pins p level).1 = ACK_OKAY := by
  obtain ⟨new, hnew⟩ := select_pin_mapped hp
  simp [write_mapped_pin, hnew]

theorem selectedState_reachable (bus : BusType) (d : DelayParams) (nr : Nat) :
    Reachable bus (selectedState bus d nr) := by
  obtain ⟨r, hr, -⟩ := drive_select_inv nr (boot_inv (bootState_boot bus d))
  exact ⟨bootState bus d, [Cmd.select nr], bootState_boot bus d,
    by simp [run, step, selectedState, hr]⟩

/-- What `drive_deselect` does in a state that satisfies the invariant: it
returns, clears `unit_nr`, and records either nothing (nothing was selected) or
the one write of the selected unit's pin to `O_FALSE`. -/
theorem drive_deselect_effect {bus : BusType} {s : State} (h : Inv bus s) :
    ∃ s1 dsel, drive_deselect s = some s1 ∧ s1.trace = s.trace ++ dsel ∧
      s1.unit_nr = -1 ∧ s1.bus_type = bus ∧ s1.delay_params = s.delay_params ∧
      s1.unit_motor = s.unit_motor ∧
      ((s.unit_nr = -1 ∧ dsel = [] ∧ s1 = s) ∨
       (s.unit_nr ≠ -1 ∧ ∃ old, find_pin msel_pins (deselect_pin bus s.unit_nr) = some old ∧
          dsel = [HalEvent.write old.gpio_bank old.gpio_pin O_FALSE] ∧
          s1 = { gpio_write_pin s old.gpio_bank old.gpio_pin O_FALSE with unit_nr := -1 })) := by
  by_cases hsel : s.unit_nr = -1
  · exact ⟨s, [], drive_deselect_idle hsel, by simp, hsel, h.1, rfl, rfl,
      Or.inl ⟨hsel, rfl, rfl⟩⟩
  · obtain ⟨old, hold, hd⟩ := drive_deselect_selected h hsel
    exact ⟨_, _, hd, rfl, rfl, h.1, rfl, rfl, Or.inr ⟨hsel, old, hold, rfl, rfl⟩⟩

/-- C3. Bus routing of a successful select: in every state reachable from boot
under a fixed bus type, for a unit `nr` of the bus (IBMPC: 0, 1; SHUGART: 0, 1,
2) other than the selected one, `drive_select nr` returns `OKAY`; the pin it
resolves is IBMPC 0 -> 14, 1 -> 12, SHUGART 0 -> 10, 1 -> 12, 2 -> 14, mapped
by `msel_pins` to GPIO A3 (10), B9 (12), A4 (14); after the deselect of the
previous unit (nothing, or one write to `O_FALSE`) it records exactly the write
of that GPIO to `O_TRUE` followed by one `delay_us select_delay`; `unit_nr`
becomes `nr`; and afterwards a SELECT pin of the bus is at `O_TRUE` exactly
when it is that pin. -/
theorem drive_select_routing (bus : BusType) (s : State) (nr : Nat)
    (hreach : Reachable bus s) (hne : (nr : Int) ≠ s.unit_nr)
    (hunit : (bus = BUS_IBMPC ∧ nr < 2) ∨ (bus = BUS_SHUGART ∧ nr < 3)) :
    ∃ p new s1 dsel s2,
      select_pin bus nr = .ok p ∧
      p = (if bus = BUS_IBMPC then (if nr = 0 then 14 else 12)
           else (if nr = 0 then 10 else if nr = 1 then 12 else 14)) ∧
      find_pin msel_pins p = some new ∧
      (new.gpio_bank, new.gpio_pin) =
        (if p = 10 then (_A, 3) else if p = 12 then (_B, 9) else (_A, 4)) ∧
      drive_deselect s = some s1 ∧ s1.trace = s.trace ++ dsel ∧
      ((s.unit_nr = -1 ∧ dsel = []) ∨
       (s.unit_nr ≠ -1 ∧ ∃ old, find_pin msel_pins (deselect_pin bus s.unit_nr) = some old ∧
          dsel = [HalEvent.write old.gpio_bank old.gpio_pin O_FALSE])) ∧
      drive_select s nr = some (ACK_OKAY, s2) ∧
      s2.trace = s.trace ++ dsel ++
        [HalEvent.write new.gpio_bank new.gpio_pin O_TRUE,
         HalEvent.delay_us s.delay_params.select_delay] ∧
      s2.unit_nr = (nr : Int) ∧
      s2.gpio = s1.gpio.set new.gpio_bank new.gpio_pin O_TRUE ∧
      ∀ (n : Nat) (q : Int), select_pin bus n = .ok q →
        (msel_level s2.gpio q = some O_TRUE ↔ q = p) := by
  have hinv := reachable_inv hreach
  obtain ⟨s1, dsel, hd, htr, hu1, hb1, hdp1, -, hcase⟩ := drive_deselect_effect hinv
  have hp : ∃ p, select_pin bus nr = .ok p ∧
      p = (if bus = BUS_IBMPC then (if nr = 0 then 14 else 12)
           else (if nr = 0 then 10 else if nr = 1 then 12 else 14)) := by
    rcases hunit with ⟨rfl, hn⟩ | ⟨rfl, hn⟩ <;> interval_cases nr <;>
      simp [select_pin]
  obtain ⟨p, hp, hpeq⟩ := hp
  obtain ⟨new, hnew⟩ := select_pin_mapped hp
  have hsel := drive_select_after_deselect hne hd (by rw [hb1]; exact hp) hnew
  obtain ⟨r, hr, hinv2⟩ := drive_select_inv nr hinv
  rw [hsel] at hr
  cases hr
  refine ⟨p, new, s1, dsel, _, hp, hpeq, hnew, ?_, hd, htr, ?_, hsel, ?_, rfl, rfl, ?_⟩
  · rcases hunit with ⟨rfl, hn⟩ | ⟨rfl, hn⟩ <;> interval_cases nr <;>
      simp [select_pin] at hp <;> subst hp <;>
      simp [find_pin, msel_pins] at hnew <;> subst hnew <;> simp
  · rcases hcase with ⟨h1, h2, -⟩ | ⟨h1, old, h2, h3, -⟩
    · exact Or.inl ⟨h1, h2⟩
    · exact Or.inr ⟨h1, old, h2, h3⟩
  · simp [delay_us, gpio_write_pin, htr, hdp1]
  · intro n q hq
    obtain ⟨-, hinv2⟩ := hinv2
    clear hcase hsel hd hreach hinv htr hdp1 hpeq hne
    rcases hunit with ⟨rfl, hn⟩ | ⟨rfl, hn⟩
    · obtain ⟨-, h4, h9, -⟩ := hinv2
      simp only [delay_us, gpio_write_pin] at h4 h9
      simp only [select_pin] at hq
      interval_cases nr <;> simp [select_pin] at hp <;> subst hp <;>
        simp [find_pin, msel_pins] at hnew <;> subst hnew <;>
        simp [Gpio.set, lvl, O_TRUE, O_FALSE] at h4 h9 <;>
        split_ifs at hq <;> cases hq <;>
        simp [msel_level, find_pin, msel_pins, delay_us, gpio_write_pin, Gpio.set, h4, h9,
          O_TRUE]
    · obtain ⟨-, h3, h9, h4, -⟩ := hinv2
      simp only [delay_us, gpio_write_pin] at h3 h4 h9
      simp only [select_pin] at hq
      interval_cases nr <;> simp [select_pin] at hp <;> subst hp <;>
        simp [find_pin, msel_pins] at hnew <;> subst hnew <;>
        simp [Gpio.set, lvl, O_TRUE, O_FALSE] at h3 h4 h9 <;>
        split_ifs at hq <;> cases hq <;>
        simp [msel_level, find_pin, msel_pins, delay_us, gpio_write_pin, Gpio.set, h3, h4, h9,
          O_TRUE]

theorem drive_select_routing_witness :
    Reachable BUS_IBMPC (selectedState BUS_IBMPC ⟨10, 750⟩ 0) ∧
    ((1 : Nat) : Int) ≠ (selectedState BUS_IBMPC ⟨10, 750⟩ 0).unit_nr ∧
    ((BUS_IBMPC = BUS_IBMPC ∧ 1 < 2) ∨ (BUS_IBMPC = BUS_SHUGART ∧ 1 < 3)) ∧
    ∃ p new s1 dsel s2,
      select_pin BUS_IBMPC 1 = .ok p ∧
      p = (if BUS_IBMPC = BUS_IBMPC then (if 1 = 0 then 14 else 12)
           else (if 1 = 0 then 10 else if 1 = 1 then 12 else 14)) ∧
      find_pin msel_pins p = some new ∧
      (new.gpio_bank, new.gpio_pin) =
        (if p = 10 then (_A, 3) else if p = 12 then (_B, 9) else (_A, 4)) ∧
      drive_deselect (selectedState BUS_IBMPC ⟨10, 750⟩ 0) = some s1 ∧
      s1.trace = (selectedState BUS_IBMPC ⟨10, 750⟩ 0).trace ++ dsel ∧
      (((selectedState BUS_IBMPC ⟨10, 750⟩ 0).unit_nr = -1 ∧ dsel = []) ∨
       ((selectedState BUS_IBMPC ⟨10, 750⟩ 0).unit_nr ≠ -1 ∧
          ∃ old, find_pin msel_pins
              (deselect_pin BUS_IBMPC (selectedState BUS_IBMPC ⟨10, 750⟩ 0).unit_nr) = some old ∧
          dsel = [HalEvent.write old.gpio_bank old.gpio_pin O_FALSE])) ∧
      drive_select (selectedState BUS_IBMPC ⟨10, 750⟩ 0) 1 = some (ACK_OKAY, s2) ∧
      s2.trace = (selectedState BUS_IBMPC ⟨10, 750⟩ 0).trace ++ dsel ++
        [HalEvent.write new.gpio_bank new.gpio_pin O_TRUE,
         HalEvent.delay_us (selectedState BUS_IBMPC ⟨10, 750⟩ 0).delay_params.select_delay] ∧
      s2.unit_nr = ((1 : Nat) : Int) ∧
      s2.gpio = s1.gpio.set new.gpio_bank new.gpio_pin O_TRUE ∧
      ∀ (n : Nat) (q : Int), select_pin BUS_IBMPC n = .ok q →
        (msel_level s2.gpio q = some O_TRUE ↔ q = p) :=
  ⟨selectedState_reachable _ _ _, by decide, by decide,
    drive_select_routing BUS_IBMPC (selectedState BUS_IBMPC ⟨10, 750⟩ 0) 1
      (selectedState_reachable _ _ _) (by decide) (by decide)⟩

theorem select_pin_error {bus : BusType} {nr : Nat} {e : Ack}
    (h : select_pin bus nr = .error e) :
    (bus = BUS_UNSET ∧ e = ACK_NO_BUS) ∨
    (e = ACK_BAD_UNIT ∧ ((bus = BUS_IBMPC ∧ nr ≥ 2) ∨ (bus = BUS_SHUGART ∧ nr ≥ 3))) := by
  cases bus
  · rcases nr with _ | _ | n <;> simp [select_pin] at h ⊢
    exact h.symm
  · rcases nr with _ | _ | _ | n <;> simp [select_pin] at h ⊢
    exact h.symm
  · simp [select_pin] at h ⊢
    exact h.symm

theorem select_pin_ok {bus : BusType} {nr : Nat} {p : Int} (h : select_pin bus nr = .ok p) :
    (bus = BUS_IBMPC ∧ nr < 2) ∨ (bus = BUS_SHUGART ∧ nr < 3) := by
  cases bus
  · rcases nr with _ | _ | n <;> simp [select_pin] at h ⊢
  · rcases nr with _ | _ | _ | n <;> simp [select_pin] at h ⊢
  · simp [select_pin] at h

/-- C4. Result code of `drive_select`: in every state reachable from boot under
a fixed bus type and for every `nr` in 0..255 the call returns (it does not
halt); it returns `NO_BUS` exactly when the bus is UNSET, `BAD_UNIT` exactly
when the bus is IBMPC and `nr >= 2` or the bus is SHUGART and `nr >= 3`, and
`OKAY` in every other case; the write of a resolved pin never fails, so the
`rc != ACK_OKAY` return of line 224 is not taken; and under UNSET the call
leaves the state, the recorded HAL calls included, as it was. -/
theorem drive_select_result (bus : BusType) (s : State) (nr : Nat)
    (hreach : Reachable bus s) (hnr : nr < 256) :
    ∃ ack s2, drive_select s nr = some (ack, s2) ∧
      (ack = ACK_NO_BUS ↔ bus = BUS_UNSET) ∧
      (ack = ACK_BAD_UNIT ↔ (bus = BUS_IBMPC ∧ nr ≥ 2) ∨ (bus = BUS_SHUGART ∧ nr ≥ 3)) ∧
      (ack = ACK_OKAY ↔ (bus = BUS_IBMPC ∧ nr < 2) ∨ (bus = BUS_SHUGART ∧ nr < 3)) ∧
      (∀ s1 p, drive_deselect s = some s1 → select_pin bus nr = .ok p →
        (write_mapped_pin s1 msel_pins p O_TRUE).1 = ACK_OKAY) ∧
      (bus = BUS_UNSET → s2 = s) := by
  have hinv := reachable_inv hreach
  have hwr : ∀ s1 p, drive_deselect s = some s1 → select_pin bus nr = .ok p →
      (write_mapped_pin s1 msel_pins p O_TRUE).1 = ACK_OKAY :=
    fun s1 p _ hp => select_pin_write_ok s1 O_TRUE hp
  by_cases hne : (nr : Int) = s.unit_nr
  · refine ⟨ACK_OKAY, s, by simp [drive_select, hne], ?_, ?_, ?_, hwr, fun _ => rfl⟩ <;>
      obtain ⟨-, hinv⟩ := hinv <;> cases bus <;> simp [Inv] at hinv ⊢ <;> omega
  · obtain ⟨s1, dsel, hd, -, -, hb1, -, -, hcase⟩ := drive_deselect_effect hinv
    have hsplit : (∃ e, select_pin bus nr = .error e) ∨ (∃ p, select_pin bus nr = .ok p) := by
      cases h : select_pin bus nr with
      | error e => exact Or.inl ⟨e, rfl⟩
      | ok p => exact Or.inr ⟨p, rfl⟩
    rcases hsplit with ⟨e, hp⟩ | ⟨p, hp⟩
    · refine ⟨e, s1, drive_select_error_after_deselect hne hd (by rw [hb1]; exact hp),
        ?_, ?_, ?_, hwr, ?_⟩
      · rcases select_pin_error hp with ⟨rfl, rfl⟩ | ⟨rfl, ⟨rfl, -⟩ | ⟨rfl, -⟩⟩ <;> simp
      · rcases select_pin_error hp with ⟨rfl, rfl⟩ | ⟨rfl, ⟨rfl, h⟩ | ⟨rfl, h⟩⟩ <;> simp <;>
          omega
      · rcases select_pin_error hp with ⟨rfl, rfl⟩ | ⟨rfl, ⟨rfl, h⟩ | ⟨rfl, h⟩⟩ <;> simp <;>
          omega
      · rintro rfl
        rcases hcase with ⟨-, -, h⟩ | ⟨h, -⟩
        · exact h
        · exact absurd hinv.2.1 h
    · obtain ⟨new, hnew⟩ := select_pin_mapped hp
      refine ⟨ACK_OKAY, _, drive_select_after_deselect hne hd (by rw [hb1]; exact hp) hnew,
        ?_, ?_, ?_, hwr, ?_⟩
      · rcases select_pin_ok hp with ⟨rfl, -⟩ | ⟨rfl, -⟩ <;> simp
      · rcases select_pin_ok hp with ⟨rfl, h⟩ | ⟨rfl, h⟩ <;> simp <;> omega
      · rcases select_pin_ok hp with ⟨rfl, h⟩ | ⟨rfl, h⟩ <;> simp [h]
      · rintro rfl
        simp [select_pin] at hp

theorem bootState_reachable (bus : BusType) (d : DelayParams) :
    Reachable bus (bootState bus d) :=
  ⟨bootState bus d, [], bootState_boot bus d, rfl⟩

theorem drive_select_result_witness :
    Reachable BUS_UNSET (bootState BUS_UNSET ⟨10, 750⟩) ∧ 0 < 256 ∧
    ∃ ack s2, drive_select (bootState BUS_UNSET ⟨10, 750⟩) 0 = some (ack, s2) ∧
      (ack = ACK_NO_BUS ↔ BUS_UNSET = BUS_UNSET) ∧
      (ack = ACK_BAD_UNIT ↔
        (BUS_UNSET = BUS_IBMPC ∧ 0 ≥ 2) ∨ (BUS_UNSET = BUS_SHUGART ∧ 0 ≥ 3)) ∧
      (ack = ACK_OKAY ↔ (BUS_UNSET = BUS_IBMPC ∧ 0 < 2) ∨ (BUS_UNSET = BUS_SHUGART ∧ 0 < 3)) ∧
      (∀ s1 p, drive_deselect (bootState BUS_UNSET ⟨10, 750⟩) = some s1 →
        select_pin BUS_UNSET 0 = .ok p →
        (write_mapped_pin s1 msel_pins p O_TRUE).1 = ACK_OKAY) ∧
      (BUS_UNSET = BUS_UNSET → s2 = bootState BUS_UNSET ⟨10, 750⟩) :=
  ⟨bootState_reachable _ _, by decide,
    drive_select_result BUS_UNSET (bootState BUS_UNSET ⟨10, 750⟩) 0
      (bootState_reachable _ _) (by decide)⟩

/-! ## Motor flags and motor lines -/

/-- C5, as stated, fails under SHUGART: after boot and `drive_motor 1 true` the
shared motor line (pin 16) is at `O_TRUE` while `unit[1].motor` is still false
(the flag that was set is `unit[0].motor`). -/
theorem motor_flag_mirror_counterexample :
    run (bootState BUS_SHUGART ⟨10, 750⟩) [Cmd.motor 1 true] =
      some (drive_motor (bootState BUS_SHUGART ⟨10, 750⟩) 1 true).2 ∧
    (drive_motor (bootState BUS_SHUGART ⟨10, 750⟩) 1 true).1 = ACK_OKAY ∧
    (drive_motor (bootState BUS_SHUGART ⟨10, 750⟩) 1 true).2.unit_motor 1 = false ∧
    (drive_motor (bootState BUS_SHUGART ⟨10, 750⟩) 1 true).2.unit_motor 0 = true ∧
    msel_level (drive_motor (bootState BUS_SHUGART ⟨10, 750⟩) 1 true).2.gpio
      (motor_pin BUS_SHUGART 1) = some O_TRUE := by
  refine ⟨rfl, rfl, rfl, rfl, by decide⟩

/-- C5 (amended). Motor flags mirror the motor lines of the flags that are
tracked: in every state reachable from boot under IBMPC, for each unit `i < 2`,
`unit[i].motor` is true exactly when the motor line of unit `i` (pin 10 for
unit 0, pin 16 for unit 1) is at `O_TRUE`; under SHUGART the shared line (pin
16) is at `O_TRUE` exactly when `unit[0].motor` is true, and `unit[1].motor`,
`unit[2].motor` are never set. -/
theorem motor_flag_mirror (bus : BusType) (s : State) (hreach : Reachable bus s) :
    (bus = BUS_IBMPC → ∀ i, i < 2 →
      (s.unit_motor i = true ↔ msel_level s.gpio (motor_pin BUS_IBMPC i) = some O_TRUE)) ∧
    (bus = BUS_SHUGART →
      (∀ i, i < 3 →
        (s.unit_motor 0 = true ↔ msel_level s.gpio (motor_pin BUS_SHUGART i) = some O_TRUE)) ∧
      s.unit_motor 1 = false ∧ s.unit_motor 2 = false) := by
  obtain ⟨-, hinv⟩ := reachable_inv hreach
  refine ⟨?_, ?_⟩
  · rintro rfl i hi
    obtain ⟨-, -, -, h3, h1⟩ := hinv
    interval_cases i
    · cases hm : s.unit_motor 0 <;>
        simp [hm, lvl, O_TRUE, O_FALSE] at h3 <;>
        simp [msel_level, find_pin, msel_pins, motor_pin, h3, O_TRUE]
    · cases hm : s.unit_motor 1 <;>
        simp [hm, lvl, O_TRUE, O_FALSE] at h1 <;>
        simp [msel_level, find_pin, msel_pins, motor_pin, h1, O_TRUE]
  · rintro rfl
    obtain ⟨-, -, -, -, h1, hm1, hm2⟩ := hinv
    refine ⟨fun i _ => ?_, hm1, hm2⟩
    cases hm : s.unit_motor 0 <;>
      simp [hm, lvl, O_TRUE, O_FALSE] at h1 <;>
      simp [msel_level, find_pin, msel_pins, motor_pin, h1, O_TRUE]

theorem motor_flag_mirror_witness :
    Reachable BUS_SHUGART (drive_motor (bootState BUS_SHUGART ⟨10, 750⟩) 1 true).2 ∧
    ((BUS_SHUGART = BUS_IBMPC → ∀ i, i < 2 →
      ((drive_motor (bootState BUS_SHUGART ⟨10, 750⟩) 1 true).2.unit_motor i = true ↔
        msel_level (drive_motor (bootState BUS_SHUGART ⟨10, 750⟩) 1 true).2.gpio (motor_pin BUS_IBMPC i) =
          some O_TRUE)) ∧
    (BUS_SHUGART = BUS_SHUGART →
      (∀ i, i < 3 →
        ((drive_motor (bootState BUS_SHUGART ⟨10, 750⟩) 1 true).2.unit_motor 0 = true ↔
          msel_level (drive_motor (bootState BUS_SHUGART ⟨10, 750⟩) 1 true).2.gpio (motor_pin BUS_SHUGART i) =
            some O_TRUE)) ∧
      (drive_motor (bootState BUS_SHUGART ⟨10, 750⟩) 1 true).2.unit_motor 1 = false ∧
      (drive_motor (bootState BUS_SHUGART ⟨10, 750⟩) 1 true).2.unit_motor 2 = false)) :=
  ⟨⟨_, [Cmd.motor 1 true], bootState_boot _ _, rfl⟩,
    motor_flag_mirror BUS_SHUGART (drive_motor (bootState BUS_SHUGART ⟨10, 750⟩) 1 true).2
      ⟨_, [Cmd.motor 1 true], bootState_boot _ _, rfl⟩⟩

/-- C6. Shugart motor aliasing: under SHUGART, for `nr` in 0, 1, 2 and every
`on`, `drive_motor nr on` is `drive_motor 0 on`. If `unit[0].motor` differs
from `on` it returns `OKAY`, records the write of pin 16 (GPIO A1) to `O_TRUE`
when `on` and to `O_FALSE` otherwise (followed by `delay_ms motor_delay` only
when `on`), sets `unit[0].motor` to `on` and leaves every other flag as it was;
if `unit[0].motor` already equals `on` it returns `OKAY` and the state,
recorded HAL calls included, is unchanged. -/
theorem shugart_motor_aliasing (s : State) (nr : Nat) (on_ : Bool)
    (hbus : s.bus_type = BUS_SHUGART) (hnr : nr < 3) :
    drive_motor s nr on_ = drive_motor s 0 on_ ∧
    (s.unit_motor 0 ≠ on_ →
      find_pin msel_pins 16 = some ⟨16, _A, 1⟩ ∧
      (drive_motor s nr on_).1 = ACK_OKAY ∧
      (drive_motor s nr on_).2.trace =
        s.trace ++ [HalEvent.write _A 1 (if on_ then O_TRUE else O_FALSE)] ++
          (if on_ then [HalEvent.delay_ms s.delay_params.motor_delay] else []) ∧
      (drive_motor s nr on_).2.gpio = s.gpio.set _A 1 (if on_ then O_TRUE else O_FALSE) ∧
      (drive_motor s nr on_).2.unit_motor 0 = on_ ∧
      (∀ i, i ≠ 0 → (drive_motor s nr on_).2.unit_motor i = s.unit_motor i) ∧
      (drive_motor s nr on_).2.unit_nr = s.unit_nr) ∧
    (s.unit_motor 0 = on_ → drive_motor s nr on_ = (ACK_OKAY, s)) := by
  have hn : ¬ nr ≥ 3 := by omega
  have h0 : drive_motor s nr on_ = drive_motor s 0 on_ := by simp [drive_motor, hbus, hn]
  refine ⟨h0, ?_, ?_⟩
  · intro hm
    rw [h0]
    clear h0 hn hnr
    refine ⟨rfl, ?_, ?_, ?_, ?_, ?_, ?_⟩ <;> cases on_ <;>
      simp_all [drive_motor, drive_motor_write, write_mapped_pin, find_pin, msel_pins,
        gpio_write_pin, delay_ms]
  · intro hm
    simp [drive_motor, hbus, hn, hm]

theorem shugart_motor_aliasing_witness :
    (bootState BUS_SHUGART ⟨10, 750⟩).bus_type = BUS_SHUGART ∧ 2 < 3 ∧
    (drive_motor (bootState BUS_SHUGART ⟨10, 750⟩) 2 true =
      drive_motor (bootState BUS_SHUGART ⟨10, 750⟩) 0 true ∧
    ((bootState BUS_SHUGART ⟨10, 750⟩).unit_motor 0 ≠ true →
      find_pin msel_pins 16 = some ⟨16, _A, 1⟩ ∧
      (drive_motor (bootState BUS_SHUGART ⟨10, 750⟩) 2 true).1 = ACK_OKAY ∧
      (drive_motor (bootState BUS_SHUGART ⟨10, 750⟩) 2 true).2.trace =
        (bootState BUS_SHUGART ⟨10, 750⟩).trace ++
          [HalEvent.write _A 1 (if true = true then O_TRUE else O_FALSE)] ++
          (if true = true then
            [HalEvent.delay_ms (bootState BUS_SHUGART ⟨10, 750⟩).delay_params.motor_delay]
           else []) ∧
      (drive_motor (bootState BUS_SHUGART ⟨10, 750⟩) 2 true).2.gpio =
        (bootState BUS_SHUGART ⟨10, 750⟩).gpio.set _A 1
          (if true = true then O_TRUE else O_FALSE) ∧
      (drive_motor (bootState BUS_SHUGART ⟨10, 750⟩) 2 true).2.unit_motor 0 = true ∧
      (∀ i, i ≠ 0 → (drive_motor (bootState BUS_SHUGART ⟨10, 750⟩) 2 true).2.unit_motor i =
        (bootState BUS_SHUGART ⟨10, 750⟩).unit_motor i) ∧
      (drive_motor (bootState BUS_SHUGART ⟨10, 750⟩) 2 true).2.unit_nr =
        (bootState BUS_SHUGART ⟨10, 750⟩).unit_nr) ∧
    ((bootState BUS_SHUGART ⟨10, 750⟩).unit_motor 0 = true →
      drive_motor (bootState BUS_SHUGART ⟨10, 750⟩) 2 true =
        (ACK_OKAY, bootState BUS_SHUGART ⟨10, 750⟩))) :=
  ⟨rfl, by decide, shugart_motor_aliasing (bootState BUS_SHUGART ⟨10, 750⟩) 2 true rfl
    (by decide)⟩

/-- C7. Motor idempotence: under IBMPC or SHUGART, for a unit `n` of the bus
and a state whose tracked motor flag for `n` (`unit[n].motor` under IBMPC,
`unit[0].motor` under SHUGART) differs from `on`, the first `drive_motor n on`
returns `OKAY` and records exactly one pin write (the motor pin of `n`, to
`O_TRUE` when `on`, to `O_FALSE` otherwise), followed by one `delay_ms
motor_delay` when `on` and by nothing when not; the second call returns `OKAY`
and returns the state of the first call unchanged, so it records no write and
no delay, and two calls leave the same state as one. -/
theorem motor_idempotence (s : State) (n : Nat) (on_ : Bool)
    (hbus : (s.bus_type = BUS_IBMPC ∧ n < 2) ∨ (s.bus_type = BUS_SHUGART ∧ n < 3))
    (hdiff : s.unit_motor (motor_index s.bus_type n) ≠ on_) :
    ∃ m, find_pin msel_pins (motor_pin s.bus_type n) = some m ∧
      (drive_motor s n on_).1 = ACK_OKAY ∧
      (drive_motor s n on_).2.trace =
        s.trace ++ [HalEvent.write m.gpio_bank m.gpio_pin (if on_ then O_TRUE else O_FALSE)] ++
          (if on_ then [HalEvent.delay_ms s.delay_params.motor_delay] else []) ∧
      drive_motor (drive_motor s n on_).2 n on_ = (ACK_OKAY, (drive_motor s n on_).2) := by
  rcases hbus with ⟨hb, hn⟩ | ⟨hb, hn⟩
  · rw [hb] at hdiff ⊢
    interval_cases n <;> refine ⟨_, rfl, ?_⟩ <;> cases on_ <;>
      simp_all [motor_index, drive_motor, drive_motor_write, write_mapped_pin, find_pin,
        msel_pins, gpio_write_pin, delay_ms]
  · rw [hb] at hdiff ⊢
    interval_cases n <;> refine ⟨_, rfl, ?_⟩ <;> cases on_ <;>
      simp_all [motor_index, drive_motor, drive_motor_write, write_mapped_pin, find_pin,
        msel_pins, gpio_write_pin, delay_ms]

theorem motor_idempotence_witness :
    (((bootState BUS_IBMPC ⟨10, 750⟩).bus_type = BUS_IBMPC ∧ 1 < 2) ∨
      ((bootState BUS_IBMPC ⟨10, 750⟩).bus_type = BUS_SHUGART ∧ 1 < 3)) ∧
    (bootState BUS_IBMPC ⟨10, 750⟩).unit_motor
      (motor_index (bootState BUS_IBMPC ⟨10, 750⟩).bus_type 1) ≠ true ∧
    ∃ m, find_pin msel_pins (motor_pin (bootState BUS_IBMPC ⟨10, 750⟩).bus_type 1) = some m ∧
      (drive_motor (bootState BUS_IBMPC ⟨10, 750⟩) 1 true).1 = ACK_OKAY ∧
      (drive_motor (bootState BUS_IBMPC ⟨10, 750⟩) 1 true).2.trace =
        (bootState BUS_IBMPC ⟨10, 750⟩).trace ++
          [HalEvent.write m.gpio_bank m.gpio_pin (if true = true then O_TRUE else O_FALSE)] ++
          (if true = true then
            [HalEvent.delay_ms (bootState BUS_IBMPC ⟨10, 750⟩).delay_params.motor_delay]
           else []) ∧
      drive_motor (drive_motor (bootState BUS_IBMPC ⟨10, 750⟩) 1 true).2 1 true =
        (ACK_OKAY, (drive_motor (bootState BUS_IBMPC ⟨10, 750⟩) 1 true).2) :=
  ⟨by decide, by decide,
    motor_idempotence (bootState BUS_IBMPC ⟨10, 750⟩) 1 true (by decide) (by decide)⟩

/-! ## Deselect -/

/-- The selected unit of a state that satisfies the invariant, the SELECT pin
of that unit in the routing table of the bus, and its GPIO: the pin is the one
`drive_select` resolves for the unit, the one `drive_deselect` resolves for
`unit_nr`, and it is asserted. -/
theorem selected_unit_pin {bus : BusType} {s : State} (h : Inv bus s)
    (hsel : s.unit_nr ≠ -1) :
    ∃ (u : Nat) (p : Int) (old : pin_mapping),
      s.unit_nr = (u : Int) ∧
      ((bus = BUS_IBMPC ∧ u < 2) ∨ (bus = BUS_SHUGART ∧ u < 3)) ∧
      select_pin bus u = .ok p ∧
      p = (if bus = BUS_IBMPC then (if u = 0 then 14 else 12)
           else (if u = 0 then 10 else if u = 1 then 12 else 14)) ∧
      find_pin msel_pins p = some old ∧
      (old.gpio_bank, old.gpio_pin) =
        (if p = 10 then (_A, 3) else if p = 12 then (_B, 9) else (_A, 4)) ∧
      deselect_pin bus s.unit_nr = p ∧
      msel_level s.gpio p = some O_TRUE := by
  obtain ⟨-, h⟩ := h
  cases bus
  · obtain ⟨hu, h4, h9, -⟩ := h
    rcases hu with hu | hu | hu
    · exact absurd hu hsel
    · refine ⟨0, 14, ⟨14, _A, 4⟩, by simpa using hu, Or.inl ⟨rfl, by decide⟩, rfl, rfl, rfl,
        rfl, by simp [hu, deselect_pin], ?_⟩
      simp [hu, lvl] at h4
      simp [msel_level, find_pin, msel_pins, h4]
    · refine ⟨1, 12, ⟨12, _B, 9⟩, by simpa using hu, Or.inl ⟨rfl, by decide⟩, rfl, rfl, rfl,
        rfl, by simp [hu, deselect_pin], ?_⟩
      simp [hu, lvl] at h9
      simp [msel_level, find_pin, msel_pins, h9]
  · obtain ⟨hu, h3, h9, h4, -⟩ := h
    rcases hu with hu | hu | hu | hu
    · exact absurd hu hsel
    · refine ⟨0, 10, ⟨10, _A, 3⟩, by simpa using hu, Or.inr ⟨rfl, by decide⟩, rfl, rfl, rfl,
        rfl, by simp [hu, deselect_pin], ?_⟩
      simp [hu, lvl] at h3
      simp [msel_level, find_pin, msel_pins, h3]
    · refine ⟨1, 12, ⟨12, _B, 9⟩, by simpa using hu, Or.inr ⟨rfl, by decide⟩, rfl, rfl, rfl,
        rfl, by simp [hu, deselect_pin], ?_⟩
      simp [hu, lvl] at h9
      simp [msel_level, find_pin, msel_pins, h9]
    · refine ⟨2, 14, ⟨14, _A, 4⟩, by simpa using hu, Or.inr ⟨rfl, by decide⟩, rfl, rfl, rfl,
        rfl, by simp [hu, deselect_pin], ?_⟩
      simp [hu, lvl] at h4
      simp [msel_level, find_pin, msel_pins, h4]
  · exact absurd h.1 hsel

/-- In an idle state that satisfies the invariant every pin `drive_select` can
resolve for the bus is at `O_FALSE`. -/
theorem inv_idle_select_released {bus : BusType} {s : State} (h : Inv bus s)
    (hidle : s.unit_nr = -1) {n : Nat} {q : Int} (hq : select_pin bus n = .ok q) :
    msel_level s.gpio q = some O_FALSE := by
  obtain ⟨-, hinv⟩ := h
  cases bus
  · obtain ⟨-, h4, h9, -⟩ := hinv
    simp [hidle, lvl] at h4 h9
    simp only [select_pin] at hq
    split_ifs at hq <;> cases hq <;> simp [msel_level, find_pin, msel_pins, h4, h9]
  · obtain ⟨-, h3, h9, h4, -⟩ := hinv
    simp [hidle, lvl] at h3 h4 h9
    simp only [select_pin] at hq
    split_ifs at hq <;> cases hq <;> simp [msel_level, find_pin, msel_pins, h3, h4, h9]
  · simp [select_pin] at hq

/-- C8. Deselect is idempotent: in every state reachable under a fixed bus type
with a unit `u` selected, the SELECT pin of `u` is the pin `drive_select`
resolves for `u` (IBMPC 0 -> 14, 1 -> 12; SHUGART 0 -> 10, 1 -> 12, 2 -> 14;
GPIO A3 for 10, B9 for 12, A4 for 14) and it is at `O_TRUE`; the first
`drive_deselect` returns, records exactly one pin write, of that pin to
`O_FALSE`, and clears `unit_nr`, after which that pin and every other SELECT
pin of the bus is at `O_FALSE`; a second `drive_deselect` returns the state of
the first unchanged (no further write), so two calls in a row equal one; and
in any state with `unit_nr` none the call returns the state as it is. -/
theorem drive_deselect_idempotent (bus : BusType) (s : State) (hreach : Reachable bus s)
    (hsel : s.unit_nr ≠ -1) :
    (∃ (u : Nat) (p : Int) (old : pin_mapping) (s1 : State),
      s.unit_nr = (u : Int) ∧
      ((bus = BUS_IBMPC ∧ u < 2) ∨ (bus = BUS_SHUGART ∧ u < 3)) ∧
      select_pin bus u = .ok p ∧
      p = (if bus = BUS_IBMPC then (if u = 0 then 14 else 12)
           else (if u = 0 then 10 else if u = 1 then 12 else 14)) ∧
      find_pin msel_pins p = some old ∧
      (old.gpio_bank, old.gpio_pin) =
        (if p = 10 then (_A, 3) else if p = 12 then (_B, 9) else (_A, 4)) ∧
      msel_level s.gpio p = some O_TRUE ∧
      find_pin msel_pins (deselect_pin bus s.unit_nr) = some old ∧
      drive_deselect s = some s1 ∧
      s1.trace = s.trace ++ [HalEvent.write old.gpio_bank old.gpio_pin O_FALSE] ∧
      s1.gpio = s.gpio.set old.gpio_bank old.gpio_pin O_FALSE ∧
      s1.unit_nr = -1 ∧
      msel_level s1.gpio p = some O_FALSE ∧
      (∀ (n : Nat) (q : Int), select_pin bus n = .ok q →
        msel_level s1.gpio q = some O_FALSE) ∧
      drive_deselect s1 = some s1) ∧
    (drive_deselect s).bind drive_deselect = drive_deselect s ∧
    (∀ t : State, t.unit_nr = -1 → drive_deselect t = some t) := by
  have hinv := reachable_inv hreach
  obtain ⟨u, p, old, hu, hunit, hp, hpeq, hfind, hgpio, hdp, hpre⟩ := selected_unit_pin hinv hsel
  obtain ⟨old1, hold1, hd⟩ := drive_deselect_selected hinv hsel
  have hsame : old1 = old := by
    rw [hdp, hfind] at hold1
    exact (Option.some.inj hold1).symm
  subst hsame
  obtain ⟨s2, hd2, hinv2⟩ := drive_deselect_inv hinv
  have hs2 : s2 = { gpio_write_pin s old1.gpio_bank old1.gpio_pin O_FALSE with unit_nr := -1 } :=
    Option.some.inj (hd2.symm.trans hd)
  rw [hs2] at hinv2
  refine ⟨⟨u, p, old1, _, hu, hunit, hp, hpeq, hfind, hgpio, hpre, hold1, hd, rfl, rfl, rfl,
    inv_idle_select_released hinv2 rfl hp,
    fun n q hq => inv_idle_select_released hinv2 rfl hq,
    drive_deselect_idle rfl⟩, ?_, fun t ht => drive_deselect_idle ht⟩
  rw [hd]
  exact drive_deselect_idle rfl

theorem drive_deselect_idempotent_witness :
    Reachable BUS_IBMPC (selectedState BUS_IBMPC ⟨10, 750⟩ 0) ∧
    (selectedState BUS_IBMPC ⟨10, 750⟩ 0).unit_nr ≠ -1 ∧
    ((∃ (u : Nat) (p : Int) (old : pin_mapping) (s1 : State),
      (selectedState BUS_IBMPC ⟨10, 750⟩ 0).unit_nr = (u : Int) ∧
      ((BUS_IBMPC = BUS_IBMPC ∧ u < 2) ∨ (BUS_IBMPC = BUS_SHUGART ∧ u < 3)) ∧
      select_pin BUS_IBMPC u = .ok p ∧
      p = (if BUS_IBMPC = BUS_IBMPC then (if u = 0 then 14 else 12)
           else (if u = 0 then 10 else if u = 1 then 12 else 14)) ∧
      find_pin msel_pins p = some old ∧
      (old.gpio_bank, old.gpio_pin) =
        (if p = 10 then (_A, 3) else if p = 12 then (_B, 9) else (_A, 4)) ∧
      msel_level (selectedState BUS_IBMPC ⟨10, 750⟩ 0).gpio p = some O_TRUE ∧
      find_pin msel_pins
        (deselect_pin BUS_IBMPC (selectedState BUS_IBMPC ⟨10, 750⟩ 0).unit_nr) = some old ∧
      drive_deselect (selectedState BUS_IBMPC ⟨10, 750⟩ 0) = some s1 ∧
      s1.trace = (selectedState BUS_IBMPC ⟨10, 750⟩ 0).trace ++
        [HalEvent.write old.gpio_bank old.gpio_pin O_FALSE] ∧
      s1.gpio = (selectedState BUS_IBMPC ⟨10, 750⟩ 0).gpio.set old.gpio_bank old.gpio_pin
        O_FALSE ∧
      s1.unit_nr = -1 ∧
      msel_level s1.gpio p = some O_FALSE ∧
      (∀ (n : Nat) (q : Int), select_pin BUS_IBMPC n = .ok q →
        msel_level s1.gpio q = some O_FALSE) ∧
      drive_deselect s1 = some s1) ∧
    (drive_deselect (selectedState BUS_IBMPC ⟨10, 750⟩ 0)).bind drive_deselect =
      drive_deselect (selectedState BUS_IBMPC ⟨10, 750⟩ 0) ∧
    (∀ t : State, t.unit_nr = -1 → drive_deselect t = some t)) :=
  ⟨selectedState_reachable _ _ _, by decide,
    drive_deselect_idempotent BUS_IBMPC (selectedState BUS_IBMPC ⟨10, 750⟩ 0)
      (selectedState_reachable _ _ _) (by decide)⟩

/-! ## User pins -/

/-- C9, as stated, fails: after `set_user_pin 4 1` GPIO A5 is at the high
level, and after the following `reset_user_pins` it is still at the high
level, not the low one: `reset_user_pins` writes `O_FALSE`, which is 1. -/
theorem user_pin_reset_counterexample :
    (set_user_pin (bootState BUS_IBMPC ⟨10, 750⟩) 4 1).1 = ACK_OKAY ∧
    (set_user_pin (bootState BUS_IBMPC ⟨10, 750⟩) 4 1).2.gpio _A 5 = HIGH ∧
    (reset_user_pins (set_user_pin (bootState BUS_IBMPC ⟨10, 750⟩) 4 1).2).gpio _A 5 = HIGH ∧
    (reset_user_pins (set_user_pin (bootState BUS_IBMPC ⟨10, 750⟩) 4 1).2).gpio _A 5 ≠ LOW ∧
    (reset_user_pins (set_user_pin (bootState BUS_IBMPC ⟨10, 750⟩) 4 1).2).trace =
      [HalEvent.write _A 5 1, HalEvent.write _A 6 1, HalEvent.write _A 5 1,
       HalEvent.write _A 7 1] := by
  refine ⟨rfl, rfl, rfl, by decide, rfl⟩

/-- C9 (amended). User pin set then reset: for each user pin id `p` in 2, 4, 6
(GPIO A6, A5, A7) and every state, `set_user_pin p 1` returns `OKAY` and leaves
the mapped GPIO at the high level; after a following `reset_user_pins` the
same GPIO is at `O_FALSE`, which is the high level as well: the level written
by `reset_user_pins` equals the level written by `set_user_pin p 1`. -/
theorem user_pin_set_then_reset (s : State) (p : Nat) (hp : p = 2 ∨ p = 4 ∨ p = 6) :
    ∃ m, find_pin user_pins (p : Int) = some m ∧
      (m.gpio_bank, m.gpio_pin) =
        (if p = 2 then (_A, 6) else if p = 4 then (_A, 5) else (_A, 7)) ∧
      (set_user_pin s p 1).1 = ACK_OKAY ∧
      (set_user_pin s p 1).2.gpio m.gpio_bank m.gpio_pin = HIGH ∧
      (reset_user_pins (set_user_pin s p 1).2).gpio m.gpio_bank m.gpio_pin = O_FALSE ∧
      O_FALSE = HIGH := by
  rcases hp with rfl | rfl | rfl <;>
    exact ⟨_, rfl, rfl, rfl, by simp [set_user_pin, find_pin, user_pins, gpio_write_pin,
      Gpio.set, HIGH], by simp [reset_user_pins, reset_pins_loop, set_user_pin, find_pin,
      user_pins, gpio_write_pin, Gpio.set], rfl⟩

theorem user_pin_set_then_reset_witness :
    ((4 : Nat) = 2 ∨ (4 : Nat) = 4 ∨ (4 : Nat) = 6) ∧
    ∃ m, find_pin user_pins ((4 : Nat) : Int) = some m ∧
      (m.gpio_bank, m.gpio_pin) =
        (if (4 : Nat) = 2 then (_A, 6) else if (4 : Nat) = 4 then (_A, 5) else (_A, 7)) ∧
      (set_user_pin (bootState BUS_IBMPC ⟨10, 750⟩) 4 1).1 = ACK_OKAY ∧
      (set_user_pin (bootState BUS_IBMPC ⟨10, 750⟩) 4 1).2.gpio m.gpio_bank m.gpio_pin = HIGH ∧
      (reset_user_pins (set_user_pin (bootState BUS_IBMPC ⟨10, 750⟩) 4 1).2).gpio
        m.gpio_bank m.gpio_pin = O_FALSE ∧
      O_FALSE = HIGH :=
  ⟨by decide, user_pin_set_then_reset (bootState BUS_IBMPC ⟨10, 750⟩) 4 (by decide)⟩

/-! ## Capture and emit DMA channels -/

theorem capture_active_flux_run (TIM_PSC sample_ns_400 : Nat) (cmds : List FluxCmd) (r : Regs) :
    capture_active (flux_run TIM_PSC sample_ns_400 r cmds) =
      (capture_active r || decide (FluxCmd.rdata_prep ∈ cmds)) := by
  induction cmds generalizing r with
  | nil => simp [flux_run]
  | cons c cs ih =>
    have h := ih (flux_step TIM_PSC sample_ns_400 r c)
    simp only [flux_run, List.foldl_cons] at h ⊢
    rw [h]
    cases c <;>
      simp [flux_step, rdata_prep, wdata_prep, dma_wdata_start, capture_active]

theorem emit_active_flux_run (TIM_PSC sample_ns_400 : Nat) (cmds : List FluxCmd) (r : Regs) :
    emit_active (flux_run TIM_PSC sample_ns_400 r cmds) =
      (emit_active r || decide (FluxCmd.dma_wdata_start ∈ cmds)) := by
  induction cmds generalizing r with
  | nil => simp [flux_run]
  | cons c cs ih =>
    have h := ih (flux_step TIM_PSC sample_ns_400 r c)
    simp only [flux_run, List.foldl_cons] at h ⊢
    rw [h]
    cases c <;>
      simp [flux_step, rdata_prep, wdata_prep, dma_wdata_start, emit_active]

/-- C10, as stated, fails: at boot neither DMA channel is enabled, and after
`rdata_prep` followed by `dma_wdata_start` both are enabled; in neither state
is exactly one of capture and emit active. -/
theorem capture_emit_counterexample :
    capture_active (flux_run 1 29 bootRegs []) = false ∧
    emit_active (flux_run 1 29 bootRegs []) = false ∧
    capture_active
      (flux_run 1 29 bootRegs [FluxCmd.rdata_prep, FluxCmd.dma_wdata_start]) = true ∧
    emit_active
      (flux_run 1 29 bootRegs [FluxCmd.rdata_prep, FluxCmd.dma_wdata_start]) = true := by
  decide

/-- C10 (amended). Capture and emit enable bits: from registers in which both
DMA channels are disabled, after any sequence of `rdata_prep`, `wdata_prep`
and `dma_wdata_start` calls, capture is active (enable bit of `dma_rdata.cr`)
exactly when `rdata_prep` is among the calls made, and emit is active (enable
bit of `dma_wdata.cr`) exactly when `dma_wdata_start` is among them; none of
the three calls clears an enable bit. -/
theorem capture_emit_enable (TIM_PSC sample_ns_400 : Nat) (r : Regs) (cmds : List FluxCmd)
    (hboot : capture_active r = false ∧ emit_active r = false) :
    (capture_active (flux_run TIM_PSC sample_ns_400 r cmds) = true ↔
      FluxCmd.rdata_prep ∈ cmds) ∧
    (emit_active (flux_run TIM_PSC sample_ns_400 r cmds) = true ↔
      FluxCmd.dma_wdata_start ∈ cmds) ∧
    (∀ c r1, capture_active r1 = true →
      capture_active (flux_step TIM_PSC sample_ns_400 r1 c) = true) ∧
    (∀ c r1, emit_active r1 = true →
      emit_active (flux_step TIM_PSC sample_ns_400 r1 c) = true) := by
  refine ⟨?_, ?_, ?_, ?_⟩
  · rw [capture_active_flux_run, hboot.1]
    simp
  · rw [emit_active_flux_run, hboot.2]
    simp
  · intro c r1 h
    cases c <;> simp_all [flux_step, rdata_prep, wdata_prep, dma_wdata_start, capture_active]
  · intro c r1 h
    cases c <;> simp_all [flux_step, rdata_prep, wdata_prep, dma_wdata_start, emit_active]

theorem capture_emit_enable_witness :
    (capture_active bootRegs = false ∧ emit_active bootRegs = false) ∧
    ((capture_active (flux_run 1 29 bootRegs
        [FluxCmd.wdata_prep, FluxCmd.dma_wdata_start, FluxCmd.rdata_prep]) = true ↔
      FluxCmd.rdata_prep ∈ [FluxCmd.wdata_prep, FluxCmd.dma_wdata_start, FluxCmd.rdata_prep]) ∧
    (emit_active (flux_run 1 29 bootRegs
        [FluxCmd.wdata_prep, FluxCmd.dma_wdata_start, FluxCmd.rdata_prep]) = true ↔
      FluxCmd.dma_wdata_start ∈
        [FluxCmd.wdata_prep, FluxCmd.dma_wdata_start, FluxCmd.rdata_prep]) ∧
    (∀ c r1, capture_active r1 = true → capture_active (flux_step 1 29 r1 c) = true) ∧
    (∀ c r1, emit_active r1 = true → emit_active (flux_step 1 29 r1 c) = true)) :=
  ⟨by decide, capture_emit_enable 1 29 bootRegs
    [FluxCmd.wdata_prep, FluxCmd.dma_wdata_start, FluxCmd.rdata_prep] (by decide)⟩

/-! ## Idle state -/

/-- C11. Idle means no SELECT asserted: in every state reachable from boot
under a fixed bus type, if `unit_nr` is none then every SELECT line of the bus
is at `O_FALSE`: pins 14 and 12 under IBMPC, pins 10, 12 and 14 under SHUGART;
in general no pin that `drive_select` can resolve for the bus is at `O_TRUE`. -/
theorem idle_no_select_asserted (bus : BusType) (s : State) (hreach : Reachable bus s)
    (hidle : s.unit_nr = -1) :
    (bus = BUS_IBMPC →
      msel_level s.gpio 14 = some O_FALSE ∧ msel_level s.gpio 12 = some O_FALSE) ∧
    (bus = BUS_SHUGART →
      msel_level s.gpio 10 = some O_FALSE ∧ msel_level s.gpio 12 = some O_FALSE ∧
      msel_level s.gpio 14 = some O_FALSE) ∧
    (∀ (n : Nat) (q : Int), select_pin bus n = .ok q → msel_level s.gpio q ≠ some O_TRUE) := by
  obtain ⟨-, hinv⟩ := reachable_inv hreach
  refine ⟨?_, ?_, ?_⟩
  · rintro rfl
    obtain ⟨-, h4, h9, -⟩ := hinv
    simp [hidle, lvl] at h4 h9
    simp [msel_level, find_pin, msel_pins, h4, h9]
  · rintro rfl
    obtain ⟨-, h3, h9, h4, -⟩ := hinv
    simp [hidle, lvl] at h3 h4 h9
    simp [msel_level, find_pin, msel_pins, h3, h4, h9]
  · intro n q hq
    cases bus
    · obtain ⟨-, h4, h9, -⟩ := hinv
      simp [hidle, lvl] at h4 h9
      simp only [select_pin] at hq
      split_ifs at hq <;> cases hq <;>
        simp [msel_level, find_pin, msel_pins, h4, h9, O_TRUE, O_FALSE]
    · obtain ⟨-, h3, h9, h4, -⟩ := hinv
      simp [hidle, lvl] at h3 h4 h9
      simp only [select_pin] at hq
      split_ifs at hq <;> cases hq <;>
        simp [msel_level, find_pin, msel_pins, h3, h4, h9, O_TRUE, O_FALSE]
    · simp [select_pin] at hq

theorem idle_no_select_asserted_witness :
    Reachable BUS_SHUGART
      (drive_motor (bootState BUS_SHUGART ⟨10, 750⟩) 1 true).2 ∧
    (drive_motor (bootState BUS_SHUGART ⟨10, 750⟩) 1 true).2.unit_nr = -1 ∧
    ((BUS_SHUGART = BUS_IBMPC →
      msel_level (drive_motor (bootState BUS_SHUGART ⟨10, 750⟩) 1 true).2.gpio 14 =
        some O_FALSE ∧
      msel_level (drive_motor (bootState BUS_SHUGART ⟨10, 750⟩) 1 true).2.gpio 12 =
        some O_FALSE) ∧
    (BUS_SHUGART = BUS_SHUGART →
      msel_level (drive_motor (bootState BUS_SHUGART ⟨10, 750⟩) 1 true).2.gpio 10 =
        some O_FALSE ∧
      msel_level (drive_motor (bootState BUS_SHUGART ⟨10, 750⟩) 1 true).2.gpio 12 =
        some O_FALSE ∧
      msel_level (drive_motor (bootState BUS_SHUGART ⟨10, 750⟩) 1 true).2.gpio 14 =
        some O_FALSE) ∧
    (∀ (n : Nat) (q : Int), select_pin BUS_SHUGART n = .ok q →
      msel_level (drive_motor (bootState BUS_SHUGART ⟨10, 750⟩) 1 true).2.gpio q ≠
        some O_TRUE)) :=
  ⟨⟨_, [Cmd.motor 1 true], bootState_boot _ _, rfl⟩, by decide,
    idle_no_select_asserted BUS_SHUGART _ ⟨_, [Cmd.motor 1 true], bootState_boot _ _, rfl⟩
      (by decide)⟩

/-! ## `drive_motor`: routing and errors -/

/-- C12. IBM/PC motor routing: under IBMPC, for `nr` in 0, 1 and every `on`
that differs from `unit[nr].motor`, `drive_motor nr on` returns `OKAY`; the pin
it resolves is 10 for unit 0 and 16 for unit 1, mapped by `msel_pins` to GPIO
A3 and A1; it records exactly one pin write, of that GPIO, to `O_TRUE` when
`on` and to `O_FALSE` otherwise, followed by `delay_ms motor_delay` exactly
when `on`; it sets `unit[nr].motor` to `on`, leaves every other flag, and
leaves `unit_nr`. -/
theorem ibmpc_motor_routing (s : State) (nr : Nat) (on_ : Bool)
    (hbus : s.bus_type = BUS_IBMPC) (hnr : nr < 2) (hdiff : s.unit_motor nr ≠ on_) :
    ∃ m, find_pin msel_pins (motor_pin BUS_IBMPC nr) = some m ∧
      motor_pin BUS_IBMPC nr = (if nr = 0 then 10 else 16) ∧
      (m.gpio_bank, m.gpio_pin) = (if nr = 0 then (_A, 3) else (_A, 1)) ∧
      (drive_motor s nr on_).1 = ACK_OKAY ∧
      (drive_motor s nr on_).2.trace =
        s.trace ++ [HalEvent.write m.gpio_bank m.gpio_pin (if on_ then O_TRUE else O_FALSE)] ++
          (if on_ then [HalEvent.delay_ms s.delay_params.motor_delay] else []) ∧
      (drive_motor s nr on_).2.gpio =
        s.gpio.set m.gpio_bank m.gpio_pin (if on_ then O_TRUE else O_FALSE) ∧
      (drive_motor s nr on_).2.unit_motor nr = on_ ∧
      (∀ i, i ≠ nr → (drive_motor s nr on_).2.unit_motor i = s.unit_motor i) ∧
      (drive_motor s nr on_).2.unit_nr = s.unit_nr := by
  interval_cases nr <;> refine ⟨_, rfl, rfl, rfl, ?_⟩ <;> cases on_ <;>
    simp_all [drive_motor, drive_motor_write, write_mapped_pin, find_pin, msel_pins,
      gpio_write_pin, delay_ms]

theorem ibmpc_motor_routing_witness :
    (selectedState BUS_IBMPC ⟨10, 750⟩ 1).bus_type = BUS_IBMPC ∧ 1 < 2 ∧
    (selectedState BUS_IBMPC ⟨10, 750⟩ 1).unit_motor 1 ≠ true ∧
    ∃ m, find_pin msel_pins (motor_pin BUS_IBMPC 1) = some m ∧
      motor_pin BUS_IBMPC 1 = (if 1 = 0 then 10 else 16) ∧
      (m.gpio_bank, m.gpio_pin) = (if 1 = 0 then (_A, 3) else (_A, 1)) ∧
      (drive_motor (selectedState BUS_IBMPC ⟨10, 750⟩ 1) 1 true).1 = ACK_OKAY ∧
      (drive_motor (selectedState BUS_IBMPC ⟨10, 750⟩ 1) 1 true).2.trace =
        (selectedState BUS_IBMPC ⟨10, 750⟩ 1).trace ++
          [HalEvent.write m.gpio_bank m.gpio_pin (if true = true then O_TRUE else O_FALSE)] ++
          (if true = true then
            [HalEvent.delay_ms (selectedState BUS_IBMPC ⟨10, 750⟩ 1).delay_params.motor_delay]
           else []) ∧
      (drive_motor (selectedState BUS_IBMPC ⟨10, 750⟩ 1) 1 true).2.gpio =
        (selectedState BUS_IBMPC ⟨10, 750⟩ 1).gpio.set m.gpio_bank m.gpio_pin
          (if true = true then O_TRUE else O_FALSE) ∧
      (drive_motor (selectedState BUS_IBMPC ⟨10, 750⟩ 1) 1 true).2.unit_motor 1 = true ∧
      (∀ i, i ≠ 1 → (drive_motor (selectedState BUS_IBMPC ⟨10, 750⟩ 1) 1 true).2.unit_motor i =
        (selectedState BUS_IBMPC ⟨10, 750⟩ 1).unit_motor i) ∧
      (drive_motor (selectedState BUS_IBMPC ⟨10, 750⟩ 1) 1 true).2.unit_nr =
        (selectedState BUS_IBMPC ⟨10, 750⟩ 1).unit_nr :=
  ⟨rfl, by decide, by decide,
    ibmpc_motor_routing (selectedState BUS_IBMPC ⟨10, 750⟩ 1) 1 true rfl (by decide)
      (by decide)⟩

/-- C13. Errors of `drive_motor`: for every state, every `nr` and every `on`,
`drive_motor nr on` returns `BAD_UNIT` exactly when the bus is IBMPC and
`nr >= 2` or the bus is SHUGART and `nr >= 3`, `NO_BUS` exactly when the bus
is UNSET, and `OKAY` otherwise; and whenever the code is not `OKAY` the state
returned is the state given: no pin write and no delay is recorded, `unit_nr`
and the motor flags are as before. -/
theorem drive_motor_errors (s : State) (nr : Nat) (on_ : Bool) :
    ((drive_motor s nr on_).1 = ACK_BAD_UNIT ↔
      (s.bus_type = BUS_IBMPC ∧ nr ≥ 2) ∨ (s.bus_type = BUS_SHUGART ∧ nr ≥ 3)) ∧
    ((drive_motor s nr on_).1 = ACK_NO_BUS ↔ s.bus_type = BUS_UNSET) ∧
    ((drive_motor s nr on_).1 = ACK_OKAY ↔
      (s.bus_type = BUS_IBMPC ∧ nr < 2) ∨ (s.bus_type = BUS_SHUGART ∧ nr < 3)) ∧
    ((drive_motor s nr on_).1 ≠ ACK_OKAY → (drive_motor s nr on_).2 = s) := by
  cases hb : s.bus_type
  · rcases Nat.lt_or_ge nr 2 with hn | hn
    · by_cases hm : s.unit_motor nr = on_
      · have hn2 : ¬ nr ≥ 2 := by omega
        simp [drive_motor, hb, hn, hn2, hm]
      · have hn2 : ¬ nr ≥ 2 := by omega
        interval_cases nr <;>
          simp [drive_motor, drive_motor_write, hb, hm, write_mapped_pin, find_pin, msel_pins]
    · have hn2 : ¬ nr < 2 := by omega
      simp [drive_motor, hb, hn, hn2]
  · rcases Nat.lt_or_ge nr 3 with hn | hn
    · have hn2 : ¬ nr ≥ 3 := by omega
      by_cases hm : s.unit_motor 0 = on_
      · simp [drive_motor, hb, hn, hn2, hm]
      · simp [drive_motor, drive_motor_write, hb, hn, hn2, hm, write_mapped_pin, find_pin,
          msel_pins]
    · have hn2 : ¬ nr < 3 := by omega
      simp [drive_motor, hb, hn, hn2]
  · simp [drive_motor, hb]

/-! ## Replaying a select; selection and motor are independent -/

/-- A `drive_select` that returned `OKAY` has left `nr` as the selected unit. -/
theorem drive_select_okay_unit {s s1 : State} {nr : Nat}
    (h : drive_select s nr = some (ACK_OKAY, s1)) : s1.unit_nr = (nr : Int) := by
  by_cases hne : (nr : Int) = s.unit_nr
  · simp [drive_select, hne] at h
    rw [← h, hne]
  · cases hd : drive_deselect s with
    | none => simp [drive_select, hne, hd] at h
    | some t =>
      cases hp : select_pin t.bus_type nr with
      | error e =>
        rw [drive_select_error_after_deselect hne hd hp] at h
        simp only [Option.some.injEq, Prod.mk.injEq] at h
        obtain ⟨rfl, -⟩ := h
        rcases select_pin_error hp with ⟨-, h2⟩ | ⟨h2, -⟩ <;> cases h2
      | ok p =>
        obtain ⟨new, hnew⟩ := select_pin_mapped hp
        rw [drive_select_after_deselect hne hd hp hnew] at h
        simp only [Option.some.injEq, Prod.mk.injEq, true_and] at h
        rw [← h]
        rfl

/-- C14. Select of the current unit is a no-op: in every state in which unit
`nr` is the selected unit, `drive_select nr` returns `OKAY` and the state given,
unchanged (no pin write, no delay recorded, same `unit_nr`, motor flags and pin
levels); in any state, a `drive_select nr` that returned `OKAY` is followed by
a `drive_select nr` that returns `OKAY` and the same state; and in every state
reachable from boot, for every unit `nr` of the bus, `drive_select nr` does
return `OKAY`, so two calls in a row leave the state that one call leaves. -/
theorem drive_select_current_noop (bus : BusType) (s : State) (nr : Nat)
    (hreach : Reachable bus s)
    (hunit : (bus = BUS_IBMPC ∧ nr < 2) ∨ (bus = BUS_SHUGART ∧ nr < 3)) :
    (∀ t : State, (nr : Int) = t.unit_nr → drive_select t nr = some (ACK_OKAY, t)) ∧
    (∀ t t1 : State, drive_select t nr = some (ACK_OKAY, t1) →
      drive_select t1 nr = some (ACK_OKAY, t1)) ∧
    ∃ s1, drive_select s nr = some (ACK_OKAY, s1) ∧ s1.unit_nr = (nr : Int) ∧
      drive_select s1 nr = some (ACK_OKAY, s1) ∧
      (drive_select s nr).bind (fun r => drive_select r.2 nr) = drive_select s nr := by
  have hcur : ∀ t : State, (nr : Int) = t.unit_nr → drive_select t nr = some (ACK_OKAY, t) :=
    fun t ht => by simp [drive_select, ht]
  have hrep : ∀ t t1 : State, drive_select t nr = some (ACK_OKAY, t1) →
      drive_select t1 nr = some (ACK_OKAY, t1) :=
    fun t t1 h => hcur t1 (drive_select_okay_unit h).symm
  have hinv := reachable_inv hreach
  have hok : ∃ s1, drive_select s nr = some (ACK_OKAY, s1) := by
    by_cases hne : (nr : Int) = s.unit_nr
    · exact ⟨s, hcur s hne⟩
    · obtain ⟨t, -, hd, -, -, hb, -⟩ := drive_deselect_effect hinv
      have hp : ∃ p, select_pin bus nr = .ok p := by
        rcases hunit with ⟨rfl, hn⟩ | ⟨rfl, hn⟩ <;> interval_cases nr <;> simp [select_pin]
      obtain ⟨p, hp⟩ := hp
      obtain ⟨new, hnew⟩ := select_pin_mapped hp
      exact ⟨_, drive_select_after_deselect hne hd (by rw [hb]; exact hp) hnew⟩
  obtain ⟨s1, h1⟩ := hok
  refine ⟨hcur, hrep, s1, h1, drive_select_okay_unit h1, hrep s s1 h1, ?_⟩
  rw [h1]
  exact hrep s s1 h1

theorem drive_select_current_noop_witness :
    Reachable BUS_IBMPC (selectedState BUS_IBMPC ⟨10, 750⟩ 0) ∧
    ((BUS_IBMPC = BUS_IBMPC ∧ 1 < 2) ∨ (BUS_IBMPC = BUS_SHUGART ∧ 1 < 3)) ∧
    ((∀ t : State, ((1 : Nat) : Int) = t.unit_nr → drive_select t 1 = some (ACK_OKAY, t)) ∧
    (∀ t t1 : State, drive_select t 1 = some (ACK_OKAY, t1) →
      drive_select t1 1 = some (ACK_OKAY, t1)) ∧
    ∃ s1, drive_select (selectedState BUS_IBMPC ⟨10, 750⟩ 0) 1 = some (ACK_OKAY, s1) ∧
      s1.unit_nr = ((1 : Nat) : Int) ∧
      drive_select s1 1 = some (ACK_OKAY, s1) ∧
      (drive_select (selectedState BUS_IBMPC ⟨10, 750⟩ 0) 1).bind
          (fun r => drive_select r.2 1) =
        drive_select (selectedState BUS_IBMPC ⟨10, 750⟩ 0) 1) :=
  ⟨selectedState_reachable _ _ _, by decide,
    drive_select_current_noop BUS_IBMPC (selectedState BUS_IBMPC ⟨10, 750⟩ 0) 1
      (selectedState_reachable _ _ _) (by decide)⟩

/-- Writing a SELECT pin of the bus does not change the level of a motor pin
of the bus. -/
theorem select_write_motor_frame {bus : BusType} {n : Nat} {p : Int} {m : pin_mapping}
    (hp : select_pin bus n = .ok p) (hm : find_pin msel_pins p = some m)
    (g : Gpio) (level : Nat) (i : Nat) :
    msel_level (g.set m.gpio_bank m.gpio_pin level) (motor_pin bus i) =
      msel_level g (motor_pin bus i) := by
  cases bus
  · simp only [select_pin] at hp
    split_ifs at hp <;> cases hp <;> simp [find_pin, msel_pins] at hm <;> subst hm <;>
      by_cases h0 : i = 0 <;> by_cases h1 : i = 1 <;>
      simp [motor_pin, msel_level, find_pin, msel_pins, Gpio.set, h0, h1]
  · simp only [select_pin] at hp
    split_ifs at hp <;> cases hp <;> simp [find_pin, msel_pins] at hm <;> subst hm <;>
      simp [motor_pin, msel_level, find_pin, msel_pins, Gpio.set]
  · simp [select_pin] at hp

/-- The pin `drive_deselect` resolves for a selected unit of the bus is the
pin `drive_select` resolves for that unit. -/
theorem deselect_pin_is_select_pin {bus : BusType} {s : State} (h : Inv bus s)
    (hsel : s.unit_nr ≠ -1) :
    ∃ n : Nat, select_pin bus n = .ok (deselect_pin bus s.unit_nr) := by
  obtain ⟨-, h⟩ := h
  cases bus
  · obtain ⟨hu, -⟩ := h
    rcases hu with hu | hu | hu
    · exact absurd hu hsel
    · exact ⟨0, by simp [hu, select_pin, deselect_pin]⟩
    · exact ⟨1, by simp [hu, select_pin, deselect_pin]⟩
  · obtain ⟨hu, -⟩ := h
    rcases hu with hu | hu | hu | hu
    · exact absurd hu hsel
    · exact ⟨0, by simp [hu, select_pin, deselect_pin]⟩
    · exact ⟨1, by simp [hu, select_pin, deselect_pin]⟩
    · exact ⟨2, by simp [hu, select_pin, deselect_pin]⟩
  · exact absurd h.1 hsel

/-- In a state that satisfies the invariant `drive_deselect` returns and
leaves the motor flags and the motor pins of the bus as they were. -/
theorem drive_deselect_motor_frame {bus : BusType} {s : State} (h : Inv bus s) :
    ∃ s1, drive_deselect s = some s1 ∧ s1.bus_type = bus ∧
      s1.unit_motor = s.unit_motor ∧
      ∀ i, msel_level s1.gpio (motor_pin bus i) = msel_level s.gpio (motor_pin bus i) := by
  obtain ⟨s1, dsel, hd, -, -, hb, -, hm, hcase⟩ := drive_deselect_effect h
  refine ⟨s1, hd, hb, hm, fun i => ?_⟩
  rcases hcase with ⟨-, -, rfl⟩ | ⟨hsel, old, hold, -, rfl⟩
  · rfl
  · obtain ⟨n, hn⟩ := deselect_pin_is_select_pin h hsel
    exact select_write_motor_frame hn hold s.gpio O_FALSE i

/-- Writing a motor pin of the bus does not change the level of a SELECT pin
of the bus. -/
theorem drive_motor_select_frame (s : State) (nr : Nat) (on_ : Bool) {n : Nat} {q : Int}
    (hq : select_pin s.bus_type n = .ok q) :
    (drive_motor s nr on_).2.unit_nr = s.unit_nr ∧
    (drive_motor s nr on_).2.bus_type = s.bus_type ∧
    msel_level (drive_motor s nr on_).2.gpio q = msel_level s.gpio q := by
  cases hb : s.bus_type <;> rw [hb] at hq
  · rcases Nat.lt_or_ge nr 2 with hn | hn
    · simp only [select_pin] at hq
      by_cases hm : s.unit_motor nr = on_
      · have hn2 : ¬ nr ≥ 2 := by omega
        simp [drive_motor, hb, hn2, hm]
      · interval_cases nr <;> split_ifs at hq <;> cases hq <;> cases on_ <;>
          simp [drive_motor, drive_motor_write, hb, hm, write_mapped_pin, find_pin, msel_pins,
            gpio_write_pin, delay_ms, msel_level, Gpio.set]
    · simp [drive_motor, hb, hn]
  · rcases Nat.lt_or_ge nr 3 with hn | hn
    · have hn2 : ¬ nr ≥ 3 := by omega
      simp only [select_pin] at hq
      by_cases hm : s.unit_motor 0 = on_
      · simp [drive_motor, hb, hn2, hm]
      · split_ifs at hq <;> cases hq <;> cases on_ <;>
          simp [drive_motor, drive_motor_write, hb, hn2, hm, write_mapped_pin, find_pin,
            msel_pins, gpio_write_pin, delay_ms, msel_level, Gpio.set]
    · simp [drive_motor, hb, hn]
  · simp [select_pin] at hq

/-- C15. Selection and motor are orthogonal: in every state reachable from boot
under a fixed bus type IBMPC or SHUGART, `drive_deselect` and `drive_select nr`
(any `nr`) return and leave every `unit[i].motor` flag and the level of every
motor pin of the bus (10 and 16 under IBMPC, 16 under SHUGART) as they were,
so a motor line asserted before remains asserted; and `drive_motor nr on`
(any `nr`, `on`) leaves `unit_nr` and the level of every SELECT pin of the bus
as they were. -/
theorem selection_motor_orthogonal (bus : BusType) (s : State) (hreach : Reachable bus s)
    (hbus : bus = BUS_IBMPC ∨ bus = BUS_SHUGART) :
    (∃ s1, drive_deselect s = some s1 ∧ s1.unit_motor = s.unit_motor ∧
      ∀ i, msel_level s1.gpio (motor_pin bus i) = msel_level s.gpio (motor_pin bus i)) ∧
    (∀ nr : Nat, ∃ r, drive_select s nr = some r ∧ r.2.unit_motor = s.unit_motor ∧
      ∀ i, msel_level r.2.gpio (motor_pin bus i) = msel_level s.gpio (motor_pin bus i)) ∧
    (∀ (nr : Nat) (on_ : Bool), (drive_motor s nr on_).2.unit_nr = s.unit_nr ∧
      ∀ (n : Nat) (q : Int), select_pin bus n = .ok q →
        msel_level (drive_motor s nr on_).2.gpio q = msel_level s.gpio q) ∧
    (∀ i, (bus = BUS_IBMPC → i < 2 → motor_pin bus i = if i = 0 then 10 else 16) ∧
      (bus = BUS_SHUGART → motor_pin bus i = 16)) := by
  have hinv := reachable_inv hreach
  have hb : s.bus_type = bus := hinv.1
  obtain ⟨s1, hd, hb1, hm1, hg1⟩ := drive_deselect_motor_frame hinv
  refine ⟨⟨s1, hd, hm1, hg1⟩, ?_, ?_, ?_⟩
  · intro nr
    by_cases hne : (nr : Int) = s.unit_nr
    · exact ⟨(ACK_OKAY, s), by simp [drive_select, hne], rfl, fun _ => rfl⟩
    · have hsplit : (∃ e, select_pin bus nr = .error e) ∨ (∃ p, select_pin bus nr = .ok p) := by
        cases h : select_pin bus nr with
        | error e => exact Or.inl ⟨e, rfl⟩
        | ok p => exact Or.inr ⟨p, rfl⟩
      rcases hsplit with ⟨e, hp⟩ | ⟨p, hp⟩
      · exact ⟨_, drive_select_error_after_deselect hne hd (by rw [hb1]; exact hp), hm1, hg1⟩
      · obtain ⟨new, hnew⟩ := select_pin_mapped hp
        refine ⟨_, drive_select_after_deselect hne hd (by rw [hb1]; exact hp) hnew, hm1,
          fun i => ?_⟩
        rw [← hg1 i]
        exact select_write_motor_frame hp hnew s1.gpio O_TRUE i
  · intro nr on_
    refine ⟨?_, fun n q hq => ?_⟩
    · cases hbs : s.bus_type
      · exact (drive_motor_select_frame s nr on_ (n := 0) (q := 14)
          (by simp [hbs, select_pin])).1
      · exact (drive_motor_select_frame s nr on_ (n := 0) (q := 10)
          (by simp [hbs, select_pin])).1
      · rw [hb] at hbs
        rcases hbus with h | h <;> rw [h] at hbs <;> cases hbs
    · exact (drive_motor_select_frame s nr on_ (by rw [hb]; exact hq)).2.2
  · intro i
    refine ⟨?_, ?_⟩
    · rintro rfl hi
      interval_cases i <;> simp [motor_pin]
    · rintro rfl
      rfl

theorem selection_motor_orthogonal_witness :
    Reachable BUS_IBMPC (selectedState BUS_IBMPC ⟨10, 750⟩ 1) ∧
    (BUS_IBMPC = BUS_IBMPC ∨ BUS_IBMPC = BUS_SHUGART) ∧
    ((∃ s1, drive_deselect (selectedState BUS_IBMPC ⟨10, 750⟩ 1) = some s1 ∧
      s1.unit_motor = (selectedState BUS_IBMPC ⟨10, 750⟩ 1).unit_motor ∧
      ∀ i, msel_level s1.gpio (motor_pin BUS_IBMPC i) =
        msel_level (selectedState BUS_IBMPC ⟨10, 750⟩ 1).gpio (motor_pin BUS_IBMPC i)) ∧
    (∀ nr : Nat, ∃ r, drive_select (selectedState BUS_IBMPC ⟨10, 750⟩ 1) nr = some r ∧
      r.2.unit_motor = (selectedState BUS_IBMPC ⟨10, 750⟩ 1).unit_motor ∧
      ∀ i, msel_level r.2.gpio (motor_pin BUS_IBMPC i) =
        msel_level (selectedState BUS_IBMPC ⟨10, 750⟩ 1).gpio (motor_pin BUS_IBMPC i)) ∧
    (∀ (nr : Nat) (on_ : Bool),
      (drive_motor (selectedState BUS_IBMPC ⟨10, 750⟩ 1) nr on_).2.unit_nr =
        (selectedState BUS_IBMPC ⟨10, 750⟩ 1).unit_nr ∧
      ∀ (n : Nat) (q : Int), select_pin BUS_IBMPC n = .ok q →
        msel_level (drive_motor (selectedState BUS_IBMPC ⟨10, 750⟩ 1) nr on_).2.gpio q =
          msel_level (selectedState BUS_IBMPC ⟨10, 750⟩ 1).gpio q) ∧
    (∀ i, (BUS_IBMPC = BUS_IBMPC → i < 2 →
        motor_pin BUS_IBMPC i = if i = 0 then 10 else 16) ∧
      (BUS_IBMPC = BUS_SHUGART → motor_pin BUS_IBMPC i = 16))) :=
  ⟨selectedState_reachable _ _ _, by decide,
    selection_motor_orthogonal BUS_IBMPC (selectedState BUS_IBMPC ⟨10, 750⟩ 1)
      (selectedState_reachable _ _ _) (by decide)⟩

/-! ## Auxiliary pin surface -/

theorem find_user_pin_miss {pin : Nat} (h2 : pin ≠ 2) (h4 : pin ≠ 4) (h6 : pin ≠ 6) :
    find_pin user_pins (pin : Int) = none := by
  have i2 : ¬ ((2 : Int) = (pin : Int)) := by omega
  have i4 : ¬ ((4 : Int) = (pin : Int)) := by omega
  have i6 : ¬ ((6 : Int) = (pin : Int)) := by omega
  simp [find_pin, user_pins, i2, i4, i6]

/-- C16. `set_user_pin` hit and miss: for every state, `pin_id` and `level`,
`set_user_pin` returns `OKAY` exactly when `pin_id` is 2, 4 or 6; then it
records one write, of the mapped GPIO (2 -> A6, 4 -> A5, 6 -> A7) to `level`,
and every other pin keeps its level; for every other `pin_id` (0, 10, 12, 14,
16 included) it returns `BAD_PIN` and the state given; in both cases the
SELECT/MOTOR lines 10, 12, 14, 16, `unit_nr` and the motor flags are as they
were. -/
theorem set_user_pin_hit_miss (s : State) (pin level : Nat) :
    ((set_user_pin s pin level).1 = ACK_OKAY ↔ pin = 2 ∨ pin = 4 ∨ pin = 6) ∧
    (pin = 2 → set_user_pin s pin level = (ACK_OKAY, gpio_write_pin s _A 6 level)) ∧
    (pin = 4 → set_user_pin s pin level = (ACK_OKAY, gpio_write_pin s _A 5 level)) ∧
    (pin = 6 → set_user_pin s pin level = (ACK_OKAY, gpio_write_pin s _A 7 level)) ∧
    (∀ bank p l, (gpio_write_pin s bank p l).trace = s.trace ++ [HalEvent.write bank p l] ∧
      (gpio_write_pin s bank p l).gpio bank p = l ∧
      ∀ b q, ¬ (b = bank ∧ q = p) → (gpio_write_pin s bank p l).gpio b q = s.gpio b q) ∧
    (¬ (pin = 2 ∨ pin = 4 ∨ pin = 6) → set_user_pin s pin level = (ACK_BAD_PIN, s)) ∧
    (pin = 0 ∨ pin = 10 ∨ pin = 12 ∨ pin = 14 ∨ pin = 16 →
      set_user_pin s pin level = (ACK_BAD_PIN, s)) ∧
    (∀ q : Int, msel_level (set_user_pin s pin level).2.gpio q = msel_level s.gpio q) ∧
    (set_user_pin s pin level).2.unit_nr = s.unit_nr ∧
    (set_user_pin s pin level).2.unit_motor = s.unit_motor := by
  have hmiss : ¬ (pin = 2 ∨ pin = 4 ∨ pin = 6) → set_user_pin s pin level = (ACK_BAD_PIN, s) := by
    intro h
    have h2 : pin ≠ 2 := fun e => h (Or.inl e)
    have h4 : pin ≠ 4 := fun e => h (Or.inr (Or.inl e))
    have h6 : pin ≠ 6 := fun e => h (Or.inr (Or.inr e))
    simp [set_user_pin, find_user_pin_miss h2 h4 h6]
  have hframe : ∀ q : Int,
      msel_level (set_user_pin s pin level).2.gpio q = msel_level s.gpio q := by
    intro q
    unfold set_user_pin
    cases hf : find_pin user_pins (pin : Int) with
    | none => rfl
    | some m =>
      simp only [msel_level]
      cases hq : find_pin msel_pins q with
      | none => rfl
      | some mq =>
        simp only [find_pin, msel_pins] at hq
        rcases find_user_pin hf with rfl | rfl | rfl <;> split_ifs at hq <;>
          simp at hq <;> subst hq <;> simp [gpio_write_pin, Gpio.set]
  refine ⟨?_, ?_, ?_, ?_, ?_, hmiss, ?_, hframe, ?_, ?_⟩
  · constructor
    · intro h
      by_contra hne
      rw [hmiss hne] at h
      cases h
    · rintro (rfl | rfl | rfl) <;> simp [set_user_pin, find_pin, user_pins]
  · rintro rfl
    simp [set_user_pin, find_pin, user_pins]
  · rintro rfl
    simp [set_user_pin, find_pin, user_pins]
  · rintro rfl
    simp [set_user_pin, find_pin, user_pins]
  · intro bank p l
    refine ⟨rfl, by simp [gpio_write_pin, Gpio.set], fun b q h => ?_⟩
    simp [gpio_write_pin, Gpio.set, h]
  · intro h
    apply hmiss
    omega
  · unfold set_user_pin
    cases find_pin user_pins (pin : Int) <;> rfl
  · unfold set_user_pin
    cases find_pin user_pins (pin : Int) <;> rfl

/-- C17. User-pin reset: for every state, `reset_user_pins` records the three
writes of A6, A5, A7 (user pins 2, 4, 6) to `O_FALSE`, after which each of them
reads `O_FALSE` whatever its level was; `unit_nr`, the motor flags, the levels
of the SELECT/MOTOR pins 10, 12, 14, 16 and of every pin other than the three
user pins are as they were. -/
theorem reset_user_pins_effect (s : State) :
    (∀ p : Int, p = 2 ∨ p = 4 ∨ p = 6 →
      ∃ m, find_pin user_pins p = some m ∧
        (reset_user_pins s).gpio m.gpio_bank m.gpio_pin = O_FALSE) ∧
    (reset_user_pins s).gpio _A 6 = O_FALSE ∧
    (reset_user_pins s).gpio _A 5 = O_FALSE ∧
    (reset_user_pins s).gpio _A 7 = O_FALSE ∧
    (reset_user_pins s).trace = s.trace ++
      [HalEvent.write _A 6 O_FALSE, HalEvent.write _A 5 O_FALSE, HalEvent.write _A 7 O_FALSE] ∧
    (reset_user_pins s).unit_nr = s.unit_nr ∧
    (reset_user_pins s).unit_motor = s.unit_motor ∧
    (reset_user_pins s).bus_type = s.bus_type ∧
    (∀ q : Int, msel_level (reset_user_pins s).gpio q = msel_level s.gpio q) ∧
    (∀ b p, ¬ (b = _A ∧ (p = 5 ∨ p = 6 ∨ p = 7)) →
      (reset_user_pins s).gpio b p = s.gpio b p) := by
  have hg : (reset_user_pins s).gpio =
      ((s.gpio.set _A 6 O_FALSE).set _A 5 O_FALSE).set _A 7 O_FALSE := by
    simp [reset_user_pins, reset_pins_loop, user_pins, gpio_write_pin]
  refine ⟨?_, ?_, ?_, ?_, ?_, ?_, ?_, ?_, ?_, ?_⟩
  · rintro p (rfl | rfl | rfl) <;> refine ⟨_, rfl, ?_⟩ <;> simp [hg, Gpio.set]
  · simp [hg, Gpio.set]
  · simp [hg, Gpio.set]
  · simp [hg, Gpio.set]
  · simp [reset_user_pins, reset_pins_loop, user_pins, gpio_write_pin]
  · simp [reset_user_pins, reset_pins_loop, user_pins, gpio_write_pin]
  · simp [reset_user_pins, reset_pins_loop, user_pins, gpio_write_pin]
  · simp [reset_user_pins, reset_pins_loop, user_pins, gpio_write_pin]
  · intro q
    simp only [msel_level, hg]
    cases hq : find_pin msel_pins q with
    | none => rfl
    | some mq =>
      simp only [find_pin, msel_pins] at hq
      split_ifs at hq <;> simp at hq <;> subst hq <;> simp [Gpio.set]
  · intro b p h
    have h5 : ¬ (b = _A ∧ p = 5) := fun e => h ⟨e.1, Or.inl e.2⟩
    have h6 : ¬ (b = _A ∧ p = 6) := fun e => h ⟨e.1, Or.inr (Or.inl e.2)⟩
    have h7 : ¬ (b = _A ∧ p = 7) := fun e => h ⟨e.1, Or.inr (Or.inr e.2)⟩
    simp [hg, Gpio.set, h5, h6, h7]

/-- C18. Flippy probe restores state: for every state and every behaviour
`get_trk0` of the track-0 input, `flippy_detect` records exactly four HAL
calls: override (B14) to `HIGH`, `delay_us 10`, override to `LOW`,
`delay_us 10`; track-0 is sampled in the state reached after the first two,
where the override is `HIGH` and 10 microseconds have been waited since it
was driven; the override is `HIGH` after the first and the second recorded
call and `LOW` after the third and the fourth, so it is low on return; the
delays of the call total 20 microseconds, at least 10; and the result is true
exactly when the sampled level is `HIGH`. -/
theorem flippy_probe (s : State) (get_trk0 : State → Nat) :
    (flippy_detect s get_trk0).2.gpio _B 14 = LOW ∧
    (flippy_detect s get_trk0).2.trace = s.trace ++
      [HalEvent.write _B 14 HIGH, HalEvent.delay_us 10,
       HalEvent.write _B 14 LOW, HalEvent.delay_us 10] ∧
    (flippy_trk0_sensor s HIGH).trace = s.trace ++
      [HalEvent.write _B 14 HIGH, HalEvent.delay_us 10] ∧
    (flippy_trk0_sensor s HIGH).gpio _B 14 = HIGH ∧
    ((flippy_detect s get_trk0).1 = true ↔ get_trk0 (flippy_trk0_sensor s HIGH) = HIGH) ∧
    delay_total_us [HalEvent.write _B 14 HIGH, HalEvent.delay_us 10] = 10 ∧
    delay_total_us [HalEvent.write _B 14 HIGH, HalEvent.delay_us 10,
      HalEvent.write _B 14 LOW, HalEvent.delay_us 10] = 20 ∧
    replay s.gpio [HalEvent.write _B 14 HIGH] _B 14 = HIGH ∧
    replay s.gpio [HalEvent.write _B 14 HIGH, HalEvent.delay_us 10] _B 14 = HIGH ∧
    replay s.gpio [HalEvent.write _B 14 HIGH, HalEvent.delay_us 10,
      HalEvent.write _B 14 LOW] _B 14 = LOW ∧
    replay s.gpio [HalEvent.write _B 14 HIGH, HalEvent.delay_us 10,
      HalEvent.write _B 14 LOW, HalEvent.delay_us 10] _B 14 = LOW ∧
    (flippy_detect s get_trk0).2.gpio = replay s.gpio
      [HalEvent.write _B 14 HIGH, HalEvent.delay_us 10,
       HalEvent.write _B 14 LOW, HalEvent.delay_us 10] ∧
    (flippy_detect s get_trk0).2.unit_nr = s.unit_nr ∧
    (flippy_detect s get_trk0).2.unit_motor = s.unit_motor := by
  refine ⟨?_, ?_, ?_, ?_, ?_, rfl, rfl, ?_, ?_, ?_, ?_, ?_, rfl, rfl⟩
  · simp [flippy_detect, flippy_trk0_sensor, delay_us, gpio_write_pin, Gpio.set]
  · simp [flippy_detect, flippy_trk0_sensor, delay_us, gpio_write_pin]
  · simp [flippy_trk0_sensor, delay_us, gpio_write_pin]
  · simp [flippy_trk0_sensor, delay_us, gpio_write_pin, Gpio.set]
  · simp [flippy_detect]
  · simp [replay, HalEvent.apply, Gpio.set]
  · simp [replay, HalEvent.apply, Gpio.set]
  · simp [replay, HalEvent.apply, Gpio.set]
  · simp [replay, HalEvent.apply, Gpio.set]
  · simp [flippy_detect, flippy_trk0_sensor, delay_us, gpio_write_pin, replay, HalEvent.apply]

/-- C19. Readable pin: for every state, `pin_id` and prior content of `*out`,
`mcu_get_floppy_pin` returns `OKAY` exactly when `pin_id` is 34, and then `*out`
holds the level read from GPIO bank B pin 15; for every other `pin_id` it
returns `BAD_PIN` and `*out` keeps its content; in both cases the state (pin
levels, `unit_nr`, motor flags, recorded HAL calls) is the state given. -/
theorem readable_pin (s : State) (pin p_level : Nat) :
    ((mcu_get_floppy_pin s pin p_level).1 = ACK_OKAY ↔ pin = 34) ∧
    (pin = 34 → mcu_get_floppy_pin s pin p_level = (ACK_OKAY, gpio_read_pin s _B 15, s)) ∧
    gpio_read_pin s _B 15 = s.gpio _B 15 ∧
    (pin ≠ 34 → mcu_get_floppy_pin s pin p_level = (ACK_BAD_PIN, p_level, s)) ∧
    (mcu_get_floppy_pin s pin p_level).2.2 = s := by
  by_cases h : pin = 34 <;> simp [mcu_get_floppy_pin, gpio_read_pin, h]

/-! ## The assertion of `drive_deselect` -/

/-- An entry returned by the table walk is an entry of the table, before the
sentinel, with the id searched for. -/
theorem find_pin_some {map : List pin_mapping} {pin : Int} {m : pin_mapping}
    (h : find_pin map pin = some m) : m ∈ map ∧ m.pin_id ≠ 0 ∧ (m.pin_id : Int) = pin := by
  induction map with
  | nil => simp [find_pin] at h
  | cons a rest ih =>
    simp only [find_pin] at h
    split_ifs at h with h0 h1
    · cases h
      exact ⟨List.mem_cons_self _ _, h0, h1⟩
    · obtain ⟨hm, hr⟩ := ih h
      exact ⟨List.mem_cons_of_mem _ hm, hr⟩

/-- C20. The fatal assertion in `drive_deselect` is unreachable in normal
operation: in every state reachable from boot under a fixed bus type, a `unit_nr`
that is not none is 0 or 1 under IBMPC and 0, 1 or 2 under SHUGART, and
`unit_nr` is none under UNSET; when a unit is selected the pin `drive_deselect`
resolves is the id of an entry of `msel_pins` before the sentinel, so
`write_mapped_pin` returns `ACK_OKAY` and the assertion holds: `drive_deselect`
returns, `drive_select` returns for every `nr`, and no further sequence of host
calls halts. -/
theorem deselect_assert_holds (bus : BusType) (s : State) (hreach : Reachable bus s) :
    s.bus_type = bus ∧
    (bus = BUS_IBMPC → s.unit_nr = -1 ∨ (0 ≤ s.unit_nr ∧ s.unit_nr < 2)) ∧
    (bus = BUS_SHUGART → s.unit_nr = -1 ∨ (0 ≤ s.unit_nr ∧ s.unit_nr < 3)) ∧
    (bus = BUS_UNSET → s.unit_nr = -1) ∧
    (s.unit_nr ≠ -1 →
      ∃ m, m ∈ msel_pins ∧ m.pin_id ≠ 0 ∧
        (m.pin_id : Int) = deselect_pin s.bus_type s.unit_nr ∧
        find_pin msel_pins (deselect_pin s.bus_type s.unit_nr) = some m ∧
        (write_mapped_pin s msel_pins (deselect_pin s.bus_type s.unit_nr) O_FALSE).1 =
          ACK_OKAY) ∧
    (∃ s1, drive_deselect s = some s1) ∧
    (∀ nr : Nat, ∃ r, drive_select s nr = some r) ∧
    (∀ cmds : List Cmd, ∃ s1, run s cmds = some s1 ∧ Reachable bus s1) := by
  have hinv := reachable_inv hreach
  have hb : s.bus_type = bus := hinv.1
  refine ⟨hb, ?_, ?_, ?_, ?_, ?_, ?_, ?_⟩
  · rintro rfl
    obtain ⟨-, hu, -⟩ := hinv
    omega
  · rintro rfl
    obtain ⟨-, hu, -⟩ := hinv
    omega
  · rintro rfl
    exact hinv.2.1
  · intro hsel
    obtain ⟨old, hold, -⟩ := drive_deselect_selected hinv hsel
    rw [hb]
    obtain ⟨hmem, hne, hid⟩ := find_pin_some hold
    exact ⟨old, hmem, hne, hid, hold, by simp [write_mapped_pin, hold]⟩
  · obtain ⟨s1, h1, -⟩ := drive_deselect_inv hinv
    exact ⟨s1, h1⟩
  · intro nr
    obtain ⟨r, hr, -⟩ := drive_select_inv nr hinv
    exact ⟨r, hr⟩
  · intro cmds
    obtain ⟨s1, h1, -⟩ := run_inv cmds hinv
    refine ⟨s1, h1, ?_⟩
    obtain ⟨s0, c0, hboot, hrun⟩ := hreach
    refine ⟨s0, c0 ++ cmds, hboot, ?_⟩
    have hrun_append : ∀ (l1 l2 : List Cmd) (a b : State), run a l1 = some b →
        run a (l1 ++ l2) = run b l2 := by
      intro l1
      induction l1 with
      | nil =>
        intro l2 a b h
        simp [run] at h
        simp [h]
      | cons c cs ih =>
        intro l2 a b h
        simp only [run, List.cons_append] at h ⊢
        cases hs : step a c with
        | none => simp [hs] at h
        | some a1 =>
          simp only [hs, Option.some_bind] at h ⊢
          exact ih l2 a1 b h
    rw [hrun_append c0 cmds s0 s hrun, h1]

theorem deselect_assert_holds_witness :
    Reachable BUS_SHUGART (selectedState BUS_SHUGART ⟨10, 750⟩ 2) ∧
    ((selectedState BUS_SHUGART ⟨10, 750⟩ 2).bus_type = BUS_SHUGART ∧
    (BUS_SHUGART = BUS_IBMPC → (selectedState BUS_SHUGART ⟨10, 750⟩ 2).unit_nr = -1 ∨
      (0 ≤ (selectedState BUS_SHUGART ⟨10, 750⟩ 2).unit_nr ∧
        (selectedState BUS_SHUGART ⟨10, 750⟩ 2).unit_nr < 2)) ∧
    (BUS_SHUGART = BUS_SHUGART → (selectedState BUS_SHUGART ⟨10, 750⟩ 2).unit_nr = -1 ∨
      (0 ≤ (selectedState BUS_SHUGART ⟨10, 750⟩ 2).unit_nr ∧
        (selectedState BUS_SHUGART ⟨10, 750⟩ 2).unit_nr < 3)) ∧
    (BUS_SHUGART = BUS_UNSET → (selectedState BUS_SHUGART ⟨10, 750⟩ 2).unit_nr = -1) ∧
    ((selectedState BUS_SHUGART ⟨10, 750⟩ 2).unit_nr ≠ -1 →
      ∃ m, m ∈ msel_pins ∧ m.pin_id ≠ 0 ∧
        (m.pin_id : Int) = deselect_pin (selectedState BUS_SHUGART ⟨10, 750⟩ 2).bus_type
          (selectedState BUS_SHUGART ⟨10, 750⟩ 2).unit_nr ∧
        find_pin msel_pins (deselect_pin (selectedState BUS_SHUGART ⟨10, 750⟩ 2).bus_type
          (selectedState BUS_SHUGART ⟨10, 750⟩ 2).unit_nr) = some m ∧
        (write_mapped_pin (selectedState BUS_SHUGART ⟨10, 750⟩ 2) msel_pins
          (deselect_pin (selectedState BUS_SHUGART ⟨10, 750⟩ 2).bus_type
            (selectedState BUS_SHUGART ⟨10, 750⟩ 2).unit_nr) O_FALSE).1 = ACK_OKAY) ∧
    (∃ s1, drive_deselect (selectedState BUS_SHUGART ⟨10, 750⟩ 2) = some s1) ∧
    (∀ nr : Nat, ∃ r, drive_select (selectedState BUS_SHUGART ⟨10, 750⟩ 2) nr = some r) ∧
    (∀ cmds : List Cmd, ∃ s1, run (selectedState BUS_SHUGART ⟨10, 750⟩ 2) cmds = some s1 ∧
      Reachable BUS_SHUGART s1)) :=
  ⟨selectedState_reachable _ _ _,
    deselect_assert_holds BUS_SHUGART (selectedState BUS_SHUGART ⟨10, 750⟩ 2)
      (selectedState_reachable _ _ _)⟩

end Floppy
